import Mathlib

/-! # booksearcher / bsearch: token-stream extraction

A shallow embedding of the two Go packages `booksearcher` (src/booksearcher.go)
and `bsearch` (src/bsearch.go).

Conventions of the embedding.

* Go strings are Lean `String`s; `len(s)` is the UTF-8 byte length
  `String.utf8ByteSize`.
* The tokenizer `*html.Tokenizer` is the list of tokens it has still to deliver;
  `Next` on the empty list delivers `ErrorToken` and leaves the list empty, as
  `html.Tokenizer.Next` does at the end of its input.
* Loops that poll the tokenizer take a fuel argument (the number of iterations
  of the loop body that may run); `none` means the loop used all of it.
* `panic(err)` is the outcome `Run.panic`.
* Prices (`float32` in Go) are exact rationals.
* The field index `i` and the column index `index` (Go `int`, only ever
  incremented from 0, once per token) are natural numbers.
-/

/-! ## Library functions used by the program -/

/-- Go `unicode.IsSpace`: the Latin-1 spaces and the code points with the
Unicode White_Space property. -/
def isSpace (c : Char) : Bool :=
  let n := c.toNat
  n == 9 || n == 10 || n == 11 || n == 12 || n == 13 || n == 32 || n == 0x85 || n == 0xA0 ||
  n == 0x1680 || (0x2000 ≤ n && n ≤ 0x200A) || n == 0x2028 || n == 0x2029 || n == 0x202F ||
  n == 0x205F || n == 0x3000

/-- Go `strings.TrimSpace`: all leading and trailing white space removed. -/
def TrimSpace (s : String) : String :=
  ⟨(s.data.dropWhile isSpace).rdropWhile isSpace⟩

/-- Replace the first `n` occurrences of the character `old` in a list by `new`. -/
def replaceChars (old : Char) (new : List Char) : Nat → List Char → List Char
  | 0, l => l
  | _, [] => []
  | n + 1, c :: cs =>
    if c = old then new ++ replaceChars old new n cs
    else c :: replaceChars old new (n + 1) cs

/-- Go `strings.Replace(s, old, new, n)` for a one-character `old` and `n ≥ 0`. -/
def Replace (s : String) (old : Char) (new : String) (n : Nat) : String :=
  ⟨replaceChars old new.data n s.data⟩

/-- Go `strings.TrimPrefix(s, pre)`: `s` without the leading `pre`, if it starts with it. -/
def TrimPrefix (s pre : String) : String :=
  if pre.data.isPrefixOf s.data then ⟨s.data.drop pre.data.length⟩ else s

/-- Go `strings.HasSuffix`. -/
def HasSuffix (s suf : String) : Bool :=
  suf.data.isSuffixOf s.data

/-- Whether `sub` occurs in `l` as a contiguous block. -/
def containsChars (sub : List Char) : List Char → Bool
  | [] => sub.isEmpty
  | c :: cs => sub.isPrefixOf (c :: cs) || containsChars sub cs

/-- Go `strings.Contains`. -/
def Contains (s sub : String) : Bool :=
  containsChars sub.data s.data

/-- The pieces of a list between the occurrences of `sep` (always at least one piece). -/
def splitChars (sep : Char) : List Char → List (List Char)
  | [] => [[]]
  | c :: cs =>
    if c = sep then [] :: splitChars sep cs
    else
      match splitChars sep cs with
      | [] => [[c]]
      | p :: ps => (c :: p) :: ps

/-- Go `strings.Split(s, sep)` for a one-character separator. -/
def Split (s : String) (sep : Char) : List String :=
  (splitChars sep s.data).map String.mk

/-- The replacement text of `html.EscapeString` for one character. -/
def escapeChar (c : Char) : List Char :=
  if c = '&' then "&amp;".data
  else if c.toNat = 39 then "&#39;".data
  else if c = '<' then "&lt;".data
  else if c = '>' then "&gt;".data
  else if c = '"' then "&#34;".data
  else if c.toNat = 13 then "&#13;".data
  else [c]

/-- The function `html.EscapeString` of golang.org/x/net/html. -/
def EscapeString (s : String) : String :=
  ⟨s.data.flatMap escapeChar⟩

/-! ### Decimal parsing -/

/-- Whether a character is an ASCII decimal digit. -/
def isDigit (c : Char) : Bool :=
  48 ≤ c.toNat && c.toNat ≤ 57

/-- The number written by a list of decimal digits. -/
def digitsToNat (ds : List Char) : Nat :=
  ds.foldl (fun n c => 10 * n + (c.toNat - 48)) 0

/-- An optional leading sign: whether it is `-`, and the rest. -/
def readSign : List Char → Bool × List Char
  | [] => (false, [])
  | c :: cs => if c = '+' then (false, cs) else if c = '-' then (true, cs) else (false, c :: cs)

/-- The optional exponent part `e[+-]digits` that ends a decimal literal. -/
def readExponent : List Char → Option Int
  | [] => some 0
  | c :: cs =>
    if c = 'e' ∨ c = 'E' then
      let sd := readSign cs
      if sd.2 ≠ [] ∧ sd.2.all isDigit then
        some (if sd.1 then -(digitsToNat sd.2 : Int) else (digitsToNat sd.2 : Int))
      else none
    else none

/-- The fraction part `.digits` of a decimal literal, if there is one, and the rest. -/
def readFraction : List Char → List Char × List Char
  | [] => ([], [])
  | c :: cs => if c = '.' then (cs.takeWhile isDigit, cs.dropWhile isDigit) else ([], c :: cs)

/-- The function `readFloat` of package strconv on decimal literals
`[+-]digits[.digits][e[+-]digits]` with at least one digit in the mantissa:
the sign, the mantissa as a natural number and the power of ten, or `none`
when the string is not such a literal. -/
def readFloat (s : String) : Option (Bool × Nat × Int) :=
  let sg := readSign s.data
  let ip := sg.2.takeWhile isDigit
  let fr := readFraction (sg.2.dropWhile isDigit)
  if ip.isEmpty && fr.1.isEmpty then none
  else
    match readExponent fr.2 with
    | none => none
    | some e => some (sg.1, digitsToNat (ip ++ fr.1), e - (fr.1.length : Int))

/-- The exact value of a sign, a mantissa and a power of ten. -/
def decimalValue (d : Bool × Nat × Int) : ℚ :=
  (if d.1 then -1 else 1) * (d.2.1 : ℚ) * (10 : ℚ) ^ d.2.2

/-- The least magnitude that rounding to `float32` takes to infinity: halfway
between the largest finite `float32`, `2^128 - 2^104`, and `2^128` (the tie
rounds to the even neighbour, which is `2^128`). -/
def float32Overflow : ℚ := 2 ^ 128 - 2 ^ 103

/-- Go `strconv.ParseFloat(s, 32)` followed by the conversion `float32(·)`, on
decimal literals; `none` is a returned error (a `*strconv.NumError`): the
syntax error of a string that is no literal, or the range error of a literal
whose magnitude rounds to infinity in `float32`. The result of a literal within
range is its exact rational value: prices are exact rationals, the rounding to
the nearest `float32` is not applied. The other spellings that `ParseFloat`
accepts (hexadecimal literals, digit-separating underscores, `inf`, `nan`) are
outside this model, which reports them as errors. -/
def ParseFloat (s : String) : Option ℚ :=
  match readFloat s with
  | none => none
  | some d =>
    if -float32Overflow < decimalValue d ∧ decimalValue d < float32Overflow then
      some (decimalValue d)
    else none

/-! ### Date parsing -/

/-- The table `longMonthNames` of package time. -/
def longMonthNames : List String :=
  ["January", "February", "March", "April", "May", "June", "July", "August",
   "September", "October", "November", "December"]

/-- The function `match` of package time: equality of two strings of the same
length up to the case of ASCII letters; the loop runs over the first string. -/
def matchFold : List Char → List Char → Bool
  | [], _ => true
  | _ :: _, [] => false
  | c1 :: r1, c2 :: r2 =>
    (c1 = c2 || ((c1.toNat ||| 32) = (c2.toNat ||| 32) && 97 ≤ (c1.toNat ||| 32)
      && (c1.toNat ||| 32) ≤ 122)) && matchFold r1 r2

/-- The function `lookup` of package time: the index (counted from `k`) of the
first entry of the table that the value starts with, and the rest of the value. -/
def lookup : List String → Nat → List Char → Option (Nat × List Char)
  | [], _, _ => none
  | v :: tab, k, val =>
    if v.data.length ≤ val.length && matchFold (val.take v.data.length) v.data then
      some (k, val.drop v.data.length)
    else lookup tab (k + 1) val

/-- A `time.Time` value as far as this program sets it: a year and a month. The
zero value of `time.Time` is January of the year 1. -/
structure Time where
  year : Nat := 1
  month : Nat := 1
  deriving DecidableEq, Repr

/-- Go `time.Parse("January 2006", value)`: a month name (case ignored), then a
space (a run of spaces counts as one), then a year of exactly four digits, then
the end of the value; `none` is a returned error. -/
def timeParseMonthYear (value : String) : Option Time :=
  match lookup longMonthNames 0 value.data with
  | none => none
  | some (m, rest) =>
    match rest with
    | [] => none
    | c :: cs =>
      if c ≠ ' ' then none
      else
        let v := (c :: cs).dropWhile (fun x => x = ' ')
        if v.length = 4 ∧ v.all isDigit then some { year := digitsToNat v, month := m + 1 }
        else none

/-! ## Tokens -/

/-- The token types of golang.org/x/net/html. -/
inductive TokenType
  | ErrorToken
  | TextToken
  | StartTagToken
  | EndTagToken
  | SelfClosingTagToken
  | CommentToken
  | DoctypeToken
  deriving DecidableEq, Repr

/-- An attribute of a tag token (`html.Attribute`). -/
structure Attribute where
  Key : String
  Val : String
  deriving DecidableEq, Repr

/-- A token (`html.Token`): its type (the field `Type` of Go), its data (the tag name of a tag token, the
text of a text token) and its attributes. -/
structure Token where
  Typ : TokenType
  Data : String
  Attr : List Attribute := []
  deriving DecidableEq, Repr

/-- The token the tokenizer delivers at the end of its input. -/
def eofToken : Token := { Typ := TokenType.ErrorToken, Data := "" }

/-- Go `token.Next()` followed by `token.Token()`: the next token and the
tokenizer after it. At the end of the input the token is `ErrorToken` and the
tokenizer stays at the end. -/
def Next : List Token → Token × List Token
  | [] => (eofToken, [])
  | t :: ts => (t, ts)

/-- Go `tag.String()` for a text token: `html.EscapeString(tag.Data)`. -/
def Token.String (tag : Token) : String :=
  EscapeString tag.Data

/-! ## Errors, panics and the outside world -/

/-- The error values the program can see. -/
inductive GoError
  | transport (msg : String)
  | status (status : String)
  | decode (msg : String)
  | numError (input : String)
  | timeError (value : String)
  deriving DecidableEq, Repr

/-- The result of running a piece of code that may panic. -/
inductive Run (α : Type)
  | done (a : α)
  | panic (e : GoError)
  deriving DecidableEq, Repr

/-- A decoded image (`image.Image`). -/
structure Image where
  pixels : List Nat
  deriving DecidableEq, Repr

/-- An HTTP response as far as `addCover` reads it. -/
structure Response where
  StatusCode : Nat
  Status : String
  Body : List Nat
  deriving DecidableEq, Repr

/-- The external collaborators of `addCover`: `http.Get`, `jpeg.Decode` and
`png.Decode`, each returning a value or an error. -/
structure Env where
  Get : String → Except GoError Response
  jpegDecode : List Nat → Except GoError Image
  pngDecode : List Nat → Except GoError Image

/-- The constant `http.StatusOK`. -/
def StatusOK : Nat := 200

/-! ## Package booksearcher (src/booksearcher.go) -/

namespace booksearcher

/-- The record `Book`; `isbn` is the array `[2]string`, `cover` is `none` for a
nil image. -/
structure Book where
  isbn : String × String := ("", "")
  title : String := ""
  authors : List String := []
  publishers : List String := []
  edition : String := ""
  binding : String := ""
  cover : Option Image := none
  msrp : ℚ := 0
  published : Time := {}
  deriving DecidableEq

def Book.addISBN (b : Book) (isbn : String) : Book :=
  if isbn.utf8ByteSize = 13 then { b with isbn := (b.isbn.1, isbn) }
  else if isbn.utf8ByteSize = 10 then { b with isbn := (isbn, b.isbn.2) }
  else b

def Book.GetISBNs (b : Book) : String × String := b.isbn

def Book.addTitle (b : Book) (t : String) : Book := { b with title := t }

def Book.GetTitle (b : Book) : String := b.title

def Book.addAuthors (b : Book) (auths : List String) : Book :=
  auths.foldl (fun b au => { b with authors := b.authors ++ [TrimSpace au] }) b

def Book.GetAuthors (b : Book) : List String := b.authors

def Book.addPublishers (b : Book) (publ : List String) : Book :=
  publ.foldl (fun b pbl => { b with publishers := b.publishers ++ [TrimSpace pbl] }) b

def Book.GetPublishers (b : Book) : List String := b.publishers

def Book.addEdition (b : Book) (edt : String) : Book := { b with edition := TrimSpace edt }

def Book.GetEdition (b : Book) : String := b.edition

def Book.addBinding (b : Book) (bind : String) : Book := { b with binding := bind }

def Book.GetBinding (b : Book) : String := b.binding

/-- The method `addCover`: the book afterwards and the returned error. With a
suffix other than `.jpg` and `.png` no decoder runs, `img` stays nil and `err`
stays nil, so the cover is set to nil. -/
def Book.addCover (env : Env) (b : Book) (imgUrl : String) : Book × Option GoError :=
  match env.Get imgUrl with
  | .error err => (b, some err)
  | .ok response =>
    if response.StatusCode ≠ StatusOK then (b, some (GoError.status response.Status))
    else
      let decoded : Except GoError (Option Image) :=
        if HasSuffix imgUrl ".jpg" then (env.jpegDecode response.Body).map some
        else if HasSuffix imgUrl ".png" then (env.pngDecode response.Body).map some
        else .ok none
      match decoded with
      | .error err => (b, some err)
      | .ok img => ({ b with cover := img }, none)

def Book.GetCover (b : Book) : Option Image := b.cover

/-- The method `addPublishedDate`, which panics when the date does not parse. -/
def Book.addPublishedDate (b : Book) (t : String) : Run Book :=
  match timeParseMonthYear (TrimSpace t) with
  | none => Run.panic (GoError.timeError (TrimSpace t))
  | some f => Run.done { b with published := f }

def Book.GetPublishDate (b : Book) : Time := b.published

/-- The method `addPrice`: the book afterwards and the returned error. -/
def Book.addPrice (b : Book) (p : String) : Book × Option GoError :=
  let pr := TrimSpace (Replace p '$' "" 1)
  match ParseFloat pr with
  | none => (b, some (GoError.numError pr))
  | some prc => ({ b with msrp := prc }, none)

def Book.GetPrice (b : Book) : ℚ := b.msrp

/-- The local variables of `getBookInfo` at the head of its loop. -/
structure Scan where
  book : Book := {}
  err : Option GoError := none
  clear : Bool := false
  binfo : Bool := false
  info : Bool := false
  i : Nat := 0
  deriving DecidableEq

/-- The `switch` of `getBookInfo` on a text token inside the info panel
(lines 207-227), without the final `info = false`. -/
def dispatchText (s : Scan) (text : String) : Run Scan :=
  if s.i = 0 ∧ s.info then Run.done { s with book := s.book.addTitle text }
  else if s.i = 1 ∧ s.info then Run.done { s with book := s.book.addISBN text }
  else if s.i = 2 ∧ s.info then Run.done { s with book := s.book.addISBN text }
  else if s.i = 3 ∧ s.info then Run.done { s with book := s.book.addAuthors (Split text ';') }
  else if s.i = 4 ∧ s.info then Run.done { s with book := s.book.addEdition text }
  else if s.i = 5 ∧ s.info then Run.done { s with book := s.book.addBinding text }
  else if s.i = 6 ∧ s.info then Run.done { s with book := s.book.addPublishers (Split text ';') }
  else if s.i = 7 ∧ s.info then
    match s.book.addPublishedDate text with
    | Run.panic e => Run.panic e
    | Run.done b => Run.done { s with book := b }
  else if s.i = 8 ∧ s.info then
    let r := s.book.addPrice text
    Run.done { s with book := r.1, err := r.2 }
  else Run.done s

/-- One iteration of the loop of `getBookInfo` (lines 161-229) on the token
`tag` that `token.Next()` delivered. -/
def getBookInfoStep (env : Env) (s : Scan) (tag : Token) : Run Scan :=
  match tag.Typ with
  | TokenType.StartTagToken =>
    let binfo := s.binfo ||
      (tag.Data = "div" && tag.Attr.any (fun a => a.Key = "class" && a.Val = "bookinfo"))
    if tag.Data = "h2" ∧ binfo then Run.done { s with binfo := binfo, info := true }
    else
      let clear := s.clear || (tag.Data = "p" && binfo && decide (tag.Attr.length > 0))
      if tag.Data = "p" ∧ binfo ∧ tag.Attr.length = 0 then
        Run.done { s with binfo := binfo, clear := clear, info := false, i := s.i + 1 }
      else if tag.Data = "a" ∧ binfo ∧ s.i < 3 then
        Run.done { s with binfo := binfo, clear := clear, info := true }
      else Run.done { s with binfo := binfo, clear := clear }
  | TokenType.SelfClosingTagToken =>
    if tag.Data = "img" then
      match tag.Attr.find? (fun cov => cov.Key = "src") with
      | none => Run.done s
      | some cov =>
        let r := s.book.addCover env cov.Val
        Run.done { s with book := r.1, err := r.2 }
    else Run.done s
  | TokenType.EndTagToken =>
    if s.binfo ∧ tag.Data = "strong" ∧ s.i > 2 then Run.done { s with info := true }
    else Run.done s
  | TokenType.TextToken =>
    if s.binfo then
      match dispatchText s tag.String with
      | Run.panic e => Run.panic e
      | Run.done s1 => Run.done { s1 with info := false }
    else Run.done s
  | _ => Run.done s

/-- The loop `for !clear` of `getBookInfo`: the variables and the tokenizer when
the loop ends, a panic, or `none` when the fuel is used up. -/
def getBookInfoLoop (env : Env) : Nat → Scan → List Token → Option (Run (Scan × List Token))
  | 0, _, _ => none
  | fuel + 1, s, token =>
    if s.clear then some (Run.done (s, token))
    else
      match getBookInfoStep env s (Next token).1 with
      | Run.panic e => some (Run.panic e)
      | Run.done s1 => getBookInfoLoop env fuel s1 (Next token).2

/-- The function `getBookInfo`: the returned pair `(book, err)`, a panic, or
`none` when the fuel is used up. -/
def getBookInfo (env : Env) (fuel : Nat) (token : List Token) :
    Option (Run (Book × Option GoError)) :=
  match getBookInfoLoop env fuel {} token with
  | none => none
  | some (Run.panic e) => some (Run.panic e)
  | some (Run.done (s, _)) =>
    match s.err with
    | some e => some (Run.panic e)
    | none => some (Run.done (s.book, s.err))

end booksearcher

/-! ## Package bsearch (src/bsearch.go) -/

namespace bsearch

/-- One vendor row of `Comm`: the anonymous struct with `New`, `Used`, `Rent`. -/
structure Quote where
  New : ℚ := 0
  Used : ℚ := 0
  Rent : ℚ := 0
  deriving DecidableEq

/-- The struct `Comm`: one row per vendor. -/
structure Comm where
  Amazon : Quote := {}
  Barnes : Quote := {}
  BookRenter : Quote := {}
  Chegg : Quote := {}
  deriving DecidableEq

/-- The record `Book` of package bsearch; `Expiration` is a time in nanoseconds. -/
structure Book where
  isbn : String × String := ("", "")
  title : String := ""
  authors : List String := []
  publishers : List String := []
  edition : String := ""
  cover : Option Image := none
  msrp : ℚ := 0
  Comm : Comm := {}
  Expiration : Nat := 0
  deriving DecidableEq

def Book.addISBN (b : Book) (isbn : String) : Book :=
  if isbn.utf8ByteSize = 13 then { b with isbn := (b.isbn.1, isbn) }
  else if isbn.utf8ByteSize = 10 then { b with isbn := (isbn, b.isbn.2) }
  else b

def Book.addTitle (b : Book) (t : String) : Book := { b with title := t }

def Book.GetTitle (b : Book) : String := b.title

def Book.addAuthors (b : Book) (auths : List String) : Book :=
  auths.foldl (fun b au => { b with authors := b.authors ++ [TrimSpace au] }) b

def Book.GetAuthors (b : Book) : List String := b.authors

def Book.addPublishers (b : Book) (publ : List String) : Book :=
  publ.foldl (fun b pbl => { b with publishers := b.publishers ++ [TrimSpace pbl] }) b

def Book.GetPublishers (b : Book) : List String := b.publishers

def Book.addEdition (b : Book) (edt : String) : Book := { b with edition := TrimSpace edt }

def Book.GetEdition (b : Book) : String := b.edition

/-- The method `addCover`: the book afterwards and the returned error. With a
suffix other than `.jpg` and `.png` no decoder runs, `img` stays nil and `err`
stays nil, so the cover is set to nil. -/
def Book.addCover (env : Env) (b : Book) (imgUrl : String) : Book × Option GoError :=
  match env.Get imgUrl with
  | .error err => (b, some err)
  | .ok response =>
    if response.StatusCode ≠ StatusOK then (b, some (GoError.status response.Status))
    else
      let decoded : Except GoError (Option Image) :=
        if HasSuffix imgUrl ".jpg" then (env.jpegDecode response.Body).map some
        else if HasSuffix imgUrl ".png" then (env.pngDecode response.Body).map some
        else .ok none
      match decoded with
      | .error err => (b, some err)
      | .ok img => ({ b with cover := img }, none)

def Book.GetCover (b : Book) : Option Image := b.cover

/-- The method `addPrice`: the book afterwards and the returned error. -/
def Book.addPrice (b : Book) (p : String) : Book × Option GoError :=
  let pr := TrimSpace (Replace p '$' "" 1)
  match ParseFloat pr with
  | none => (b, some (GoError.numError pr))
  | some prc => ({ b with msrp := prc }, none)

def Book.GetPrice (b : Book) : ℚ := b.msrp

/-- The local variables of `getBookInfo` at the head of its first loop. -/
structure Scan where
  book : Book := {}
  err : Option GoError := none
  clear : Bool := false
  binfo : Bool := false
  info : Bool := false
  i : Nat := 0
  deriving DecidableEq

/-- The `switch` of `getBookInfo` on a text token inside the info panel
(lines 191-207), without the final `info = false`. -/
def dispatchText (s : Scan) (text : String) : Scan :=
  if s.i = 0 ∧ s.info then { s with book := s.book.addTitle text }
  else if s.i = 1 ∧ s.info then { s with book := s.book.addISBN text }
  else if s.i = 2 ∧ s.info then { s with book := s.book.addISBN text }
  else if s.i = 3 ∧ s.info then { s with book := s.book.addAuthors (Split text ';') }
  else if s.i = 4 ∧ s.info then { s with book := s.book.addEdition text }
  else if s.i = 6 ∧ s.info then { s with book := s.book.addPublishers (Split text ';') }
  else if s.i = 8 ∧ s.info then
    let r := s.book.addPrice text
    { s with book := r.1, err := r.2 }
  else s

/-- One iteration of the first loop of `getBookInfo` (lines 144-209) on the
token `tag` that `token.Next()` delivered. The `fmt.Println` is not modelled. -/
def getBookInfoStep (env : Env) (s : Scan) (tag : Token) : Scan :=
  match tag.Typ with
  | TokenType.StartTagToken =>
    let binfo := s.binfo ||
      (tag.Data = "div" && tag.Attr.any (fun a => a.Key = "class" && a.Val = "bookinfo"))
    if tag.Data = "h2" ∧ binfo then { s with binfo := binfo, info := true }
    else
      let clear := s.clear || (tag.Data = "p" && binfo && decide (tag.Attr.length > 0))
      if tag.Data = "p" ∧ binfo ∧ tag.Attr.length = 0 then
        { s with binfo := binfo, clear := clear, info := false, i := s.i + 1 }
      else if tag.Data = "a" ∧ binfo ∧ s.i < 3 then
        { s with binfo := binfo, clear := clear, info := true }
      else { s with binfo := binfo, clear := clear }
  | TokenType.SelfClosingTagToken =>
    if tag.Data = "img" then
      match tag.Attr.find? (fun cov => cov.Key = "src") with
      | none => s
      | some cov =>
        let r := s.book.addCover env cov.Val
        { s with book := r.1, err := r.2 }
    else s
  | TokenType.EndTagToken =>
    if s.binfo ∧ tag.Data = "strong" ∧ s.i > 2 then { s with info := true }
    else s
  | TokenType.TextToken =>
    if s.binfo then { dispatchText s tag.String with info := false }
    else s
  | _ => s

/-- The loop `for !clear` of `getBookInfo`: the variables and the tokenizer when
the loop ends, or `none` when the fuel is used up. -/
def getBookInfoLoop (env : Env) : Nat → Scan → List Token → Option (Scan × List Token)
  | 0, _, _ => none
  | fuel + 1, s, token =>
    if s.clear then some (s, token)
    else getBookInfoLoop env fuel (getBookInfoStep env s (Next token).1) (Next token).2

/-- The local variables of `getPrices` at the head of its loop (`fin` is the
variable `end`). The variable `err` of `getPrices` is never assigned, so it is
nil throughout and is not carried. -/
structure Prices where
  b : Book := {}
  fin : Bool := false
  amazon : Bool := false
  brenter : Bool := false
  barnes : Bool := false
  chegg : Bool := false
  index : Nat := 0
  deriving DecidableEq

/-- The `switch index` of `getPrices`: the vendor row after the price `pr` was
written to the column `index`. -/
def writeQuote (q : Quote) (index : Nat) (pr : ℚ) : Quote :=
  if index = 1 then { q with New := pr }
  else if index = 2 then { q with Used := pr }
  else if index = 3 then { q with Rent := pr }
  else q

/-- The `switch` of `getPrices` over the attribute value of one `alt`
attribute (lines 251-260). -/
def armVendor (s : Prices) (alt : String) : Prices :=
  if Contains alt "Amazon" then { s with amazon := true }
  else if Contains alt "Book Renter" then { s with brenter := true }
  else if Contains alt "Chegg" then { s with chegg := true }
  else if Contains alt "Barnes" then { s with barnes := true }
  else s

/-- One iteration of the loop of `getPrices` (lines 229-355) on the token `tag`
that `token.Next()` delivered. -/
def getPricesStep (s : Prices) (tag : Token) : Run Prices :=
  match tag.Typ with
  | TokenType.StartTagToken =>
    if tag.Data = "div" then
      Run.done { s with fin := s.fin || tag.Attr.any (fun a => a.Key = "id" && a.Val = "footer") }
    else if tag.Data = "th" then Run.done { s with index := s.index + 1 }
    else Run.done s
  | TokenType.SelfClosingTagToken =>
    if tag.Data = "img" then
      Run.done (tag.Attr.foldl (fun s alt => if alt.Key = "alt" then armVendor s alt.Val else s) s)
    else Run.done s
  | TokenType.TextToken =>
    let price := TrimSpace (TrimPrefix tag.String "$")
    if s.amazon then
      if price = "" then Run.done s
      else
        match ParseFloat price with
        | none => Run.panic (GoError.numError price)
        | some pr =>
          Run.done { s with
            b := { s.b with Comm := { s.b.Comm with Amazon := writeQuote s.b.Comm.Amazon s.index pr } },
            amazon := false }
    else if s.barnes then
      if price = "" then Run.done s
      else
        match ParseFloat price with
        | none => Run.panic (GoError.numError price)
        | some pr =>
          Run.done { s with
            b := { s.b with Comm := { s.b.Comm with Barnes := writeQuote s.b.Comm.Barnes s.index pr } },
            barnes := false }
    else if s.brenter then
      if price = "" then Run.done s
      else
        match ParseFloat price with
        | none => Run.panic (GoError.numError price)
        | some pr =>
          Run.done { s with
            b := { s.b with
              Comm := { s.b.Comm with BookRenter := writeQuote s.b.Comm.BookRenter s.index pr } },
            brenter := false }
    else if s.chegg then
      if price = "" then Run.done s
      else
        match ParseFloat price with
        | none => Run.panic (GoError.numError price)
        | some pr =>
          Run.done { s with
            b := { s.b with Comm := { s.b.Comm with Chegg := writeQuote s.b.Comm.Chegg s.index pr } },
            chegg := false }
    else Run.done s
  | _ => Run.done s

/-- The loop `for !end` of `getPrices`: the variables and the tokenizer when the
loop ends, a panic, or `none` when the fuel is used up. -/
def getPricesLoop : Nat → Prices → List Token → Option (Run (Prices × List Token))
  | 0, _, _ => none
  | fuel + 1, s, token =>
    if s.fin then some (Run.done (s, token))
    else
      match getPricesStep s (Next token).1 with
      | Run.panic e => some (Run.panic e)
      | Run.done s1 => getPricesLoop fuel s1 (Next token).2

/-- The function `getPrices`: the book afterwards with the returned error (the
never assigned `err`, nil), a panic, or `none` when the fuel is used up. -/
def getPrices (fuel : Nat) (token : List Token) (b : Book) :
    Option (Run (Book × Option GoError)) :=
  match getPricesLoop fuel { b := b } token with
  | none => none
  | some (Run.panic e) => some (Run.panic e)
  | some (Run.done (s, _)) => some (Run.done (s.b, none))

/-- The validity window `5 * 8766 * time.Hour` in nanoseconds. -/
def validity : Nat := 5 * 8766 * 3600000000000

/-- The function `getBookInfo`; `now` is the value of `time.Now()`. The result
is the returned pair `(book, err)`, a panic, or `none` when the fuel (given to
each of the two loops) is used up. -/
def getBookInfo (env : Env) (now : Nat) (fuel : Nat) (token : List Token) :
    Option (Run (Book × Option GoError)) :=
  match getBookInfoLoop env fuel { book := { Expiration := now + validity } } token with
  | none => none
  | some (s, rest) =>
    match s.err with
    | some e => some (Run.panic e)
    | none =>
      match getPrices fuel rest s.book with
      | none => none
      | some (Run.panic e) => some (Run.panic e)
      | some (Run.done (book, e)) =>
        match e with
        | some e1 => some (Run.panic e1)
        | none => some (Run.done (book, none))

end bsearch

/-! ## Vocabulary of the statements -/

/-- The terminal marker of the info region: a `<p>` start tag with at least one
attribute. -/
def attributedP (t : Token) : Bool :=
  t.Typ = TokenType.StartTagToken && t.Data = "p" && decide (t.Attr.length > 0)

/-- The info-panel marker: a `<div>` start tag with an attribute `class="bookinfo"`. -/
def panelDiv (t : Token) : Bool :=
  t.Typ = TokenType.StartTagToken && t.Data = "div" &&
    t.Attr.any (fun a => a.Key = "class" && a.Val = "bookinfo")

/-- A stream without terminal marker: no attributed `<p>` start tag comes after
the first info-panel marker. -/
def noTerminalMarker (token : List Token) : Prop :=
  ∀ t ∈ token.dropWhile (fun t => !panelDiv t), attributedP t = false

/-- The network is down: every fetch fails and no decoder is reached. -/
def offline : Env where
  Get := fun _ => .error (GoError.transport "offline")
  jpegDecode := fun _ => .error (GoError.decode "jpeg")
  pngDecode := fun _ => .error (GoError.decode "png")

/-- A text token with the text `d`. -/
def textToken (d : String) : Token :=
  { Typ := TokenType.TextToken, Data := d }

/-- A start tag `<name>` without attributes. -/
def startTag (name : String) : Token :=
  { Typ := TokenType.StartTagToken, Data := name }

/-- The stream of end-to-end scenario 2 with the three cell texts `t1`, `t2`,
`t3`: a self-closing `<img alt="Amazon Logo">`, three pairs of a `<th>` start
tag and a text, and the `<div id="footer">` start tag. -/
def amazonRow (t1 t2 t3 : String) : List Token :=
  [ { Typ := TokenType.SelfClosingTagToken, Data := "img",
      Attr := [{ Key := "alt", Val := "Amazon Logo" }] },
    startTag "th", textToken t1, startTag "th", textToken t2, startTag "th", textToken t3,
    { Typ := TokenType.StartTagToken, Data := "div", Attr := [{ Key := "id", Val := "footer" }] } ]

/-- Go `strings.Join` on character lists with a one-character separator: the
pieces written one after the other with `sep` between neighbours. -/
def joinWith (sep : Char) : List (List Char) → List Char
  | [] => []
  | [p] => p
  | p :: q :: r => p ++ sep :: joinWith sep (q :: r)

/-- The characters a decimal literal is made of: digits, `.`, `+`, `-`, `e`, `E`. -/
def floatChar (c : Char) : Bool :=
  isDigit c || c.toNat = 46 || c.toNat = 43 || c.toNat = 45 || c.toNat = 101 || c.toNat = 69

/-- The network is up: every fetch answers `200 OK` with the bytes of the URL
as body, and both decoders return the body as the pixels of the image. -/
def online : Env where
  Get := fun url => .ok { StatusCode := 200, Status := "200 OK", Body := url.data.map Char.toNat }
  jpegDecode := fun body => .ok { pixels := body }
  pngDecode := fun body => .ok { pixels := body }

/-- The info-panel marker `<div class="bookinfo">`. -/
def panelStart : Token :=
  { Typ := TokenType.StartTagToken, Data := "div",
    Attr := [{ Key := "class", Val := "bookinfo" }] }

/-- The terminal marker `<p class="x">`. -/
def terminalP : Token :=
  { Typ := TokenType.StartTagToken, Data := "p", Attr := [{ Key := "class", Val := "x" }] }

/-- An end tag `</name>`. -/
def endTag (name : String) : Token :=
  { Typ := TokenType.EndTagToken, Data := name }

/-- A self-closing tag `<img src="url"/>`. -/
def imgTag (url : String) : Token :=
  { Typ := TokenType.SelfClosingTagToken, Data := "img", Attr := [{ Key := "src", Val := url }] }

/-- The opening of a stream that brings `getBookInfo` to the list price: the
info-panel marker, eight `<p>` start tags without attributes (field index 8)
and a `</strong>` end tag (armed). -/
def toListPrice : List Token :=
  panelStart :: (List.replicate 8 (startTag "p") ++ [endTag "strong"])

/-- A cover reference: a self-closing `<img>` tag with a `src` attribute. -/
def imgWithSrc (t : Token) : Bool :=
  t.Typ = TokenType.SelfClosingTagToken && t.Data = "img" && t.Attr.any (fun a => a.Key = "src")

/-- A self-closing tag `<img alt="alt"/>`. -/
def altImg (alt : String) : Token :=
  { Typ := TokenType.SelfClosingTagToken, Data := "img", Attr := [{ Key := "alt", Val := alt }] }

/-- The terminal marker of the price table, `<div id="footer">`. -/
def footerDiv : Token :=
  { Typ := TokenType.StartTagToken, Data := "div", Attr := [{ Key := "id", Val := "footer" }] }

/-- The fields shared by the records of the two packages are equal. -/
def sameFields (b : booksearcher.Book) (c : bsearch.Book) : Prop :=
  b.isbn = c.isbn ∧ b.title = c.title ∧ b.authors = c.authors ∧ b.publishers = c.publishers ∧
    b.edition = c.edition ∧ b.cover = c.cover ∧ b.msrp = c.msrp

/-- The loop variables of the two `getBookInfo` agree: same flags, field index
and pending error, and records equal on the shared fields. -/
def agree (s : booksearcher.Scan) (t : bsearch.Scan) : Prop :=
  s.clear = t.clear ∧ s.binfo = t.binfo ∧ s.info = t.info ∧ s.i = t.i ∧ s.err = t.err ∧
    sameFields s.book t.book

/-- A short page: the panel marker, a title `T` under `<h2>`, a `<p>`, an
identifier under `<a>` and the terminal marker. -/
def shortPage : List Token :=
  [panelStart, startTag "h2", textToken "T", startTag "p", startTag "a",
   textToken "0306406152", terminalP]

/-- Whether the iteration of the loop of `booksearcher.getBookInfo` on the token
`tag`, from the variables `s`, dispatches a text to the title decoder: a text
token inside the panel, armed, at field index 0. -/
def titleDispatch (s : booksearcher.Scan) (tag : Token) : Bool :=
  tag.Typ = TokenType.TextToken && s.binfo && s.info && decide (s.i = 0)

/-- The texts dispatched to the title decoder, in order, while the loop of
`booksearcher.getBookInfo` runs from the variables `s` on the stream. -/
def titleTexts (env : Env) : Nat → booksearcher.Scan → List Token → List String
  | 0, _, _ => []
  | fuel + 1, s, token =>
    if s.clear then []
    else
      match booksearcher.getBookInfoStep env s (Next token).1 with
      | Run.panic _ => []
      | Run.done s1 =>
        (if titleDispatch s (Next token).1 then [(Next token).1.String] else [])
          ++ titleTexts env fuel s1 (Next token).2

/-! # Properties -/

/-! ## The info-region loop without terminal marker -/

namespace booksearcher

theorem dispatchText_frame (s s1 : Scan) (text : String) (h : dispatchText s text = Run.done s1) :
    s1.clear = s.clear ∧ s1.binfo = s.binfo ∧ s1.info = s.info ∧ s1.i = s.i := by
  unfold dispatchText at h
  repeat' split at h
  all_goals first
    | (injection h with h; subst h; simp)
    | (exact absurd h (by simp))

theorem getBookInfoStep_binfo (env : Env) (s s1 : Scan) (tag : Token)
    (h : getBookInfoStep env s tag = Run.done s1) : s1.binfo = (s.binfo || panelDiv tag) := by
  unfold getBookInfoStep at h
  split at h
  · simp only [panelDiv, *]
    dsimp only at h
    repeat' split at h
    all_goals (injection h with h; subst h; simp)
  · have : panelDiv tag = false := by simp [panelDiv, *]
    rw [this]
    dsimp only at h
    repeat' split at h
    all_goals (injection h with h; subst h; simp)
  · have : panelDiv tag = false := by simp [panelDiv, *]
    rw [this]
    repeat' split at h
    all_goals (injection h with h; subst h; simp)
  · have : panelDiv tag = false := by simp [panelDiv, *]
    rw [this]
    split at h
    · split at h
      · exact absurd h (by simp)
      · rename_i s2 hd
        injection h with h; subst h
        simp [(dispatchText_frame _ _ _ hd).2.1]
    · injection h with h; subst h; simp
  · have : panelDiv tag = false := by
      simp only [panelDiv]
      cases ht : tag.Typ <;> simp_all
    rw [this]
    injection h with h; subst h; simp

theorem getBookInfoStep_clear (env : Env) (s s1 : Scan) (tag : Token)
    (h : getBookInfoStep env s tag = Run.done s1) :
    s1.clear = (s.clear || (s.binfo && attributedP tag)) := by
  unfold getBookInfoStep at h
  split at h
  · simp only [attributedP, *]
    dsimp only at h
    repeat' split at h
    all_goals (injection h with h; subst h; by_cases hp : tag.Data = "p" <;> simp_all)
  · have : attributedP tag = false := by simp [attributedP, *]
    rw [this]
    dsimp only at h
    repeat' split at h
    all_goals (injection h with h; subst h; simp)
  · have : attributedP tag = false := by simp [attributedP, *]
    rw [this]
    repeat' split at h
    all_goals (injection h with h; subst h; simp)
  · have : attributedP tag = false := by simp [attributedP, *]
    rw [this]
    split at h
    · split at h
      · exact absurd h (by simp)
      · rename_i s2 hd
        injection h with h; subst h
        simp [(dispatchText_frame _ _ _ hd).1]
    · injection h with h; subst h; simp
  · have : attributedP tag = false := by
      simp only [attributedP]
      cases ht : tag.Typ <;> simp_all
    rw [this]
    injection h with h; subst h; simp


theorem getBookInfoLoop_never (env : Env) (fuel : Nat) :
    ∀ (s : Scan) (token : List Token), s.clear = false →
      (if s.binfo then ∀ t ∈ token, attributedP t = false else noTerminalMarker token) →
      ∀ r, getBookInfoLoop env fuel s token ≠ some (Run.done r) := by
  induction fuel with
  | zero => intro s token _ _ r; simp [getBookInfoLoop]
  | succ n ih =>
    intro s token hc hinv r
    unfold getBookInfoLoop
    rw [if_neg (by simp [hc])]
    cases hstep : getBookInfoStep env s (Next token).1 with
    | panic e => simp
    | done s1 =>
      simp only
      have hb := getBookInfoStep_binfo env s s1 _ hstep
      have hcl := getBookInfoStep_clear env s s1 _ hstep
      cases token with
      | nil =>
        apply ih
        · simpa [hc, Next, eofToken, attributedP] using hcl
        · split <;> simp [Next, noTerminalMarker]
      | cons t ts =>
        simp only [Next] at hb hcl ⊢
        cases hsb : s.binfo with
        | true =>
          rw [hsb] at hb hcl hinv
          simp only [if_true, Bool.true_or, Bool.true_and] at hb hcl hinv
          apply ih
          · rw [hcl, hc, hinv t (List.mem_cons_self _ _)]; rfl
          · rw [hb]; simp only [if_true]
            intro x hx
            exact hinv x (List.mem_cons_of_mem _ hx)
        | false =>
          rw [hsb] at hb hcl hinv
          simp only [Bool.false_or, Bool.false_and, Bool.or_false] at hb hcl hinv
          apply ih
          · rw [hcl, hc]
          · rw [hb]
            cases hp : panelDiv t with
            | true =>
              simp only [if_true]
              intro x hx
              apply hinv x
              simp [List.dropWhile, hp, hx]
            | false =>
              simp only [Bool.false_eq_true, if_false] at hinv ⊢
              intro x hx
              apply hinv x
              simpa [List.dropWhile, hp] using hx

end booksearcher

namespace bsearch

theorem dispatchText_frame_bs (s : Scan) (text : String) :
    (dispatchText s text).clear = s.clear ∧ (dispatchText s text).binfo = s.binfo ∧
      (dispatchText s text).info = s.info ∧ (dispatchText s text).i = s.i := by
  unfold dispatchText
  repeat' split
  all_goals simp

theorem getBookInfoStep_binfo_bs (env : Env) (s : Scan) (tag : Token) :
    (getBookInfoStep env s tag).binfo = (s.binfo || panelDiv tag) := by
  unfold getBookInfoStep
  split
  · simp only [panelDiv, *]
    repeat' split
    all_goals simp
  · have : panelDiv tag = false := by simp [panelDiv, *]
    rw [this]
    repeat' split
    all_goals simp
  · have : panelDiv tag = false := by simp [panelDiv, *]
    rw [this]
    repeat' split
    all_goals simp
  · have : panelDiv tag = false := by simp [panelDiv, *]
    rw [this]
    split
    · simp [(dispatchText_frame_bs s tag.String).2.1]
    · simp
  · have : panelDiv tag = false := by
      simp only [panelDiv]
      cases ht : tag.Typ <;> simp_all
    rw [this]
    simp

theorem getBookInfoStep_clear_bs (env : Env) (s : Scan) (tag : Token) :
    (getBookInfoStep env s tag).clear = (s.clear || (s.binfo && attributedP tag)) := by
  unfold getBookInfoStep
  split
  · simp only [attributedP, *]
    repeat' split
    all_goals (by_cases hp : tag.Data = "p" <;> simp_all)
  · have : attributedP tag = false := by simp [attributedP, *]
    rw [this]
    repeat' split
    all_goals simp
  · have : attributedP tag = false := by simp [attributedP, *]
    rw [this]
    repeat' split
    all_goals simp
  · have : attributedP tag = false := by simp [attributedP, *]
    rw [this]
    split
    · simp [(dispatchText_frame_bs s tag.String).1]
    · simp
  · have : attributedP tag = false := by
      simp only [attributedP]
      cases ht : tag.Typ <;> simp_all
    rw [this]
    simp

theorem getBookInfoLoop_never_bs (env : Env) (fuel : Nat) :
    ∀ (s : Scan) (token : List Token), s.clear = false →
      (if s.binfo then ∀ t ∈ token, attributedP t = false else noTerminalMarker token) →
      getBookInfoLoop env fuel s token = none := by
  induction fuel with
  | zero => intro s token _ _; simp [getBookInfoLoop]
  | succ n ih =>
    intro s token hc hinv
    unfold getBookInfoLoop
    rw [if_neg (by simp [hc])]
    have hb := getBookInfoStep_binfo_bs env s (Next token).1
    have hcl := getBookInfoStep_clear_bs env s (Next token).1
    cases token with
    | nil =>
      apply ih
      · simpa [hc, Next, eofToken, attributedP] using hcl
      · split <;> simp [Next, noTerminalMarker]
    | cons t ts =>
      simp only [Next] at hb hcl ⊢
      cases hsb : s.binfo with
      | true =>
        rw [hsb] at hb hcl hinv
        simp only [if_true, Bool.true_or, Bool.true_and] at hb hcl hinv
        apply ih
        · rw [hcl, hc, hinv t (List.mem_cons_self _ _)]; rfl
        · rw [hb]; simp only [if_true]
          intro x hx
          exact hinv x (List.mem_cons_of_mem _ hx)
      | false =>
        rw [hsb] at hb hcl hinv
        simp only [Bool.false_or, Bool.false_and, Bool.or_false] at hb hcl hinv
        apply ih
        · rw [hcl, hc]
        · rw [hb]
          cases hp : panelDiv t with
          | true =>
            simp only [if_true]
            intro x hx
            apply hinv x
            simp [List.dropWhile, hp, hx]
          | false =>
            simp only [Bool.false_eq_true, if_false] at hinv ⊢
            intro x hx
            apply hinv x
            simpa [List.dropWhile, hp] using hx

end bsearch

theorem getBookInfoLoop_empty (env : Env) (fuel : Nat) (s : booksearcher.Scan)
    (h : s.clear = false) : booksearcher.getBookInfoLoop env fuel s [] = none := by
  induction fuel with
  | zero => rfl
  | succ n ih =>
    unfold booksearcher.getBookInfoLoop
    rw [if_neg (by simp [h])]
    simpa [Next, eofToken, booksearcher.getBookInfoStep] using ih

/-- C1 (the code at the streams of the claim). On a token stream with no
attributed `<p>` start tag after the info-panel marker, whatever the fuel,
`booksearcher.getBookInfo` never returns a pair `(book, err)` and
`bsearch.getBookInfo` is still polling the exhausted tokenizer: neither
returns an error for the missing structure. On the empty stream
`booksearcher.getBookInfo` is still polling as well, whatever the fuel. -/
theorem getBookInfo_without_marker_never_returns (env : Env) (now fuel : Nat)
    (token : List Token) (h : noTerminalMarker token) :
    (∀ r, booksearcher.getBookInfo env fuel token ≠ some (Run.done r)) ∧
      bsearch.getBookInfo env now fuel token = none ∧
      booksearcher.getBookInfo env fuel [] = none := by
  refine ⟨?_, ?_, ?_⟩
  · intro r
    unfold booksearcher.getBookInfo
    have hl := booksearcher.getBookInfoLoop_never env fuel {} token rfl (by simpa using h)
    cases hloop : booksearcher.getBookInfoLoop env fuel {} token with
    | none => simp
    | some x =>
      cases x with
      | panic e => simp
      | done p => exact absurd hloop (hl p)
  · unfold bsearch.getBookInfo
    rw [bsearch.getBookInfoLoop_never_bs env fuel _ token rfl (by simpa using h)]
  · unfold booksearcher.getBookInfo
    rw [getBookInfoLoop_empty env fuel {} rfl]

/-- C1, at the empty stream: `getBookInfo` does not return there. -/
theorem getBookInfo_without_marker_never_returns_witness :
    noTerminalMarker [] ∧
      booksearcher.getBookInfo offline 7 [] = none ∧
      bsearch.getBookInfo offline 0 7 [] = none :=
  ⟨by simp [noTerminalMarker],
   (getBookInfo_without_marker_never_returns offline 0 7 [] (by simp [noTerminalMarker])).2.2,
   (getBookInfo_without_marker_never_returns offline 0 7 [] (by simp [noTerminalMarker])).2.1⟩

/-! ## Paragraph start tags -/

/-- C2. In `getBookInfo` of both packages, inside the info panel a `<p>` start
tag with at least one attribute sets `clear` and changes nothing else (field
index, armed flag, record and pending error stay); a `<p>` start tag without
attributes adds exactly 1 to the field index, clears the armed flag and changes
nothing else (in particular `clear` and the record stay). Outside the panel a
`<p>` start tag of either kind changes nothing. -/
theorem getBookInfoStep_paragraph (env : Env) (s : booksearcher.Scan) (t : bsearch.Scan)
    (a : Attribute) (attrs : List Attribute) :
    booksearcher.getBookInfoStep env { s with binfo := true }
        { Typ := TokenType.StartTagToken, Data := "p", Attr := a :: attrs }
      = Run.done { s with binfo := true, clear := true } ∧
    booksearcher.getBookInfoStep env { s with binfo := true }
        { Typ := TokenType.StartTagToken, Data := "p", Attr := [] }
      = Run.done { s with binfo := true, info := false, i := s.i + 1 } ∧
    booksearcher.getBookInfoStep env { s with binfo := false }
        { Typ := TokenType.StartTagToken, Data := "p", Attr := attrs }
      = Run.done { s with binfo := false } ∧
    bsearch.getBookInfoStep env { t with binfo := true }
        { Typ := TokenType.StartTagToken, Data := "p", Attr := a :: attrs }
      = { t with binfo := true, clear := true } ∧
    bsearch.getBookInfoStep env { t with binfo := true }
        { Typ := TokenType.StartTagToken, Data := "p", Attr := [] }
      = { t with binfo := true, info := false, i := t.i + 1 } ∧
    bsearch.getBookInfoStep env { t with binfo := false }
        { Typ := TokenType.StartTagToken, Data := "p", Attr := attrs }
      = { t with binfo := false } := by
  refine ⟨?_, ?_, ?_, ?_, ?_, ?_⟩ <;>
    simp [booksearcher.getBookInfoStep, bsearch.getBookInfoStep]

/-! ## Text tokens inside the info panel -/

theorem addAuthors_eq (b : booksearcher.Book) (auths : List String) :
    b.addAuthors auths = { b with authors := b.authors ++ auths.map TrimSpace } := by
  unfold booksearcher.Book.addAuthors
  induction auths generalizing b with
  | nil => simp
  | cons a l ih => simp [List.foldl, ih]

theorem addPublishers_eq (b : booksearcher.Book) (publ : List String) :
    b.addPublishers publ = { b with publishers := b.publishers ++ publ.map TrimSpace } := by
  unfold booksearcher.Book.addPublishers
  induction publ generalizing b with
  | nil => simp
  | cons a l ih => simp [List.foldl, ih]

theorem addPrice_frame (b : booksearcher.Book) (x : String) :
    (∃ v, b.addPrice x = ({ b with msrp := v }, none)) ∨
      (∃ e, b.addPrice x = (b, some e)) := by
  unfold booksearcher.Book.addPrice
  dsimp only
  cases ParseFloat (TrimSpace (Replace x '$' "" 1)) with
  | none => exact Or.inr ⟨_, rfl⟩
  | some v => exact Or.inl ⟨v, rfl⟩

/-- C3. In `booksearcher.getBookInfo`, a text token inside the info panel is
handled as follows, `x` being its text `tag.String()`. Not armed: the state,
with the record, is unchanged. Armed: exactly the one decoder selected by the
field index is applied to `x` and no other record field changes: 0 title, 1
and 2 identifier, 3 authors, 4 edition, 5 binding, 6 publishers, 7 publication
date (a text that is no date is a hard failure: the decoder panics), 8 list
price (`addPrice`, which changes the list price or nothing, and whose returned
error becomes the pending error), above 8 none. In every case in which the
iteration completes, the armed flag is false afterwards, and the field index,
`clear` and the panel flag are unchanged. -/
theorem getBookInfoStep_text (env : Env) (s : booksearcher.Scan) (d : String) (n : Nat) :
    booksearcher.getBookInfoStep env { s with binfo := true, info := false } (textToken d)
      = Run.done { s with binfo := true, info := false } ∧
    booksearcher.getBookInfoStep env { s with binfo := true, info := true, i := 0 } (textToken d)
      = Run.done { s with binfo := true, info := false, i := 0,
                          book := { s.book with title := EscapeString d } } ∧
    booksearcher.getBookInfoStep env { s with binfo := true, info := true, i := 1 } (textToken d)
      = Run.done { s with binfo := true, info := false, i := 1,
                          book := s.book.addISBN (EscapeString d) } ∧
    booksearcher.getBookInfoStep env { s with binfo := true, info := true, i := 2 } (textToken d)
      = Run.done { s with binfo := true, info := false, i := 2,
                          book := s.book.addISBN (EscapeString d) } ∧
    booksearcher.getBookInfoStep env { s with binfo := true, info := true, i := 3 } (textToken d)
      = Run.done { s with binfo := true, info := false, i := 3,
                          book := { s.book with authors :=
                            s.book.authors ++ (Split (EscapeString d) ';').map TrimSpace } } ∧
    booksearcher.getBookInfoStep env { s with binfo := true, info := true, i := 4 } (textToken d)
      = Run.done { s with binfo := true, info := false, i := 4,
                          book := { s.book with edition := TrimSpace (EscapeString d) } } ∧
    booksearcher.getBookInfoStep env { s with binfo := true, info := true, i := 5 } (textToken d)
      = Run.done { s with binfo := true, info := false, i := 5,
                          book := { s.book with binding := EscapeString d } } ∧
    booksearcher.getBookInfoStep env { s with binfo := true, info := true, i := 6 } (textToken d)
      = Run.done { s with binfo := true, info := false, i := 6,
                          book := { s.book with publishers :=
                            s.book.publishers ++ (Split (EscapeString d) ';').map TrimSpace } } ∧
    booksearcher.getBookInfoStep env { s with binfo := true, info := true, i := 7 } (textToken d)
      = (match timeParseMonthYear (TrimSpace (EscapeString d)) with
         | some f => Run.done { s with binfo := true, info := false, i := 7,
                                       book := { s.book with published := f } }
         | none => Run.panic (GoError.timeError (TrimSpace (EscapeString d)))) ∧
    (booksearcher.getBookInfoStep env { s with binfo := true, info := true, i := 8 } (textToken d)
      = Run.done { s with binfo := true, info := false, i := 8,
                          book := (s.book.addPrice (EscapeString d)).1,
                          err := (s.book.addPrice (EscapeString d)).2 } ∧
     ((∃ v, s.book.addPrice (EscapeString d) = ({ s.book with msrp := v }, none)) ∨
      (∃ e, s.book.addPrice (EscapeString d) = (s.book, some e)))) ∧
    booksearcher.getBookInfoStep env { s with binfo := true, info := true, i := n + 9 } (textToken d)
      = Run.done { s with binfo := true, info := false, i := n + 9 } ∧
    (∀ s1, booksearcher.getBookInfoStep env { s with binfo := true } (textToken d) = Run.done s1 →
      s1.info = false ∧ s1.i = s.i ∧ s1.binfo = true ∧ s1.clear = s.clear) := by
  refine ⟨?_, ?_, ?_, ?_, ?_, ?_, ?_, ?_, ?_, ⟨?_, addPrice_frame _ _⟩, ?_, ?_⟩
  · simp [booksearcher.getBookInfoStep, booksearcher.dispatchText, textToken]
  · simp [booksearcher.getBookInfoStep, booksearcher.dispatchText, textToken, Token.String,
      booksearcher.Book.addTitle]
  · simp [booksearcher.getBookInfoStep, booksearcher.dispatchText, textToken, Token.String]
  · simp [booksearcher.getBookInfoStep, booksearcher.dispatchText, textToken, Token.String]
  · simp [booksearcher.getBookInfoStep, booksearcher.dispatchText, textToken, Token.String,
      addAuthors_eq]
  · simp [booksearcher.getBookInfoStep, booksearcher.dispatchText, textToken, Token.String,
      booksearcher.Book.addEdition]
  · simp [booksearcher.getBookInfoStep, booksearcher.dispatchText, textToken, Token.String,
      booksearcher.Book.addBinding]
  · simp [booksearcher.getBookInfoStep, booksearcher.dispatchText, textToken, Token.String,
      addPublishers_eq]
  · simp only [booksearcher.getBookInfoStep, booksearcher.dispatchText, textToken, Token.String,
      booksearcher.Book.addPublishedDate]
    cases timeParseMonthYear (TrimSpace (EscapeString d)) <;> simp
  · simp [booksearcher.getBookInfoStep, booksearcher.dispatchText, textToken, Token.String]
  · simp [booksearcher.getBookInfoStep, booksearcher.dispatchText, textToken, Token.String]
  · intro s1 h
    simp only [booksearcher.getBookInfoStep, textToken, if_true] at h
    cases hd : booksearcher.dispatchText { s with binfo := true }
        (Token.String { Typ := TokenType.TextToken, Data := d }) with
    | panic e => rw [hd] at h; simp at h
    | done s2 =>
      rw [hd] at h
      simp only [Run.done.injEq] at h
      subst h
      obtain ⟨f1, f2, -, f4⟩ := booksearcher.dispatchText_frame _ _ _ hd
      exact ⟨rfl, f4, f2, f1⟩

/-- C3, at the armed text `T` at field index 0: the iteration completes with
the title set and the armed flag cleared. -/
theorem getBookInfoStep_text_witness :
    booksearcher.getBookInfoStep offline { binfo := true, info := true, i := 0 } (textToken "T")
      = Run.done { binfo := true, info := false, i := 0, book := { title := "T" } } ∧
    ({ binfo := true, info := false, i := 0, book := { title := "T" } } : booksearcher.Scan).info
      = false :=
  ⟨by decide,
   ((getBookInfoStep_text offline { info := true, i := 0 } "T" 0).2.2.2.2.2.2.2.2.2.2.2
      { binfo := true, info := false, i := 0, book := { title := "T" } } (by decide)).1⟩

/-! ## Identifiers -/

/-- C4. In both packages `addISBN(s)` stores `s` in slot 0 and leaves slot 1 (and
every other field) unchanged when `len(s) = 10`, stores `s` in slot 1 and leaves
slot 0 unchanged when `len(s) = 13`, and changes nothing for any other length;
a later call with a string of the same length overwrites the slot; `GetISBNs`
returns the two slots. -/
theorem addISBN_slots (b : booksearcher.Book) (c : bsearch.Book) (s s' : String) :
    (s.utf8ByteSize = 10 →
      b.addISBN s = { b with isbn := (s, b.isbn.2) } ∧
      (b.addISBN s).GetISBNs = (s, b.GetISBNs.2) ∧
      c.addISBN s = { c with isbn := (s, c.isbn.2) }) ∧
    (s.utf8ByteSize = 13 →
      b.addISBN s = { b with isbn := (b.isbn.1, s) } ∧
      (b.addISBN s).GetISBNs = (b.GetISBNs.1, s) ∧
      c.addISBN s = { c with isbn := (c.isbn.1, s) }) ∧
    (s.utf8ByteSize ≠ 10 → s.utf8ByteSize ≠ 13 → b.addISBN s = b ∧ c.addISBN s = c) ∧
    (s.utf8ByteSize = 10 → s'.utf8ByteSize = 10 →
      ((b.addISBN s).addISBN s').GetISBNs = (s', b.GetISBNs.2) ∧
      ((c.addISBN s).addISBN s').isbn = (s', c.isbn.2)) ∧
    (s.utf8ByteSize = 13 → s'.utf8ByteSize = 13 →
      ((b.addISBN s).addISBN s').GetISBNs = (b.GetISBNs.1, s') ∧
      ((c.addISBN s).addISBN s').isbn = (c.isbn.1, s')) ∧
    b.GetISBNs = b.isbn := by
  refine ⟨?_, ?_, ?_, ?_, ?_, rfl⟩
  · intro h
    simp [booksearcher.Book.addISBN, bsearch.Book.addISBN, booksearcher.Book.GetISBNs, h]
  · intro h
    simp [booksearcher.Book.addISBN, bsearch.Book.addISBN, booksearcher.Book.GetISBNs, h]
  · intro h1 h2
    simp [booksearcher.Book.addISBN, bsearch.Book.addISBN, h1, h2]
  · intro h h'
    simp [booksearcher.Book.addISBN, bsearch.Book.addISBN, booksearcher.Book.GetISBNs, h, h']
  · intro h h'
    simp [booksearcher.Book.addISBN, bsearch.Book.addISBN, booksearcher.Book.GetISBNs, h, h']

/-- C4, at the identifiers `0306406152` and `9780306406157` and at `n/a`. -/
theorem addISBN_slots_witness :
    "0306406152".utf8ByteSize = 10 ∧ "9780306406157".utf8ByteSize = 13 ∧
    "n/a".utf8ByteSize ≠ 10 ∧ "n/a".utf8ByteSize ≠ 13 ∧
    (({} : booksearcher.Book).addISBN "0306406152").GetISBNs = ("0306406152", "") ∧
    (({} : booksearcher.Book).addISBN "9780306406157").GetISBNs = ("", "9780306406157") ∧
    ({ isbn := ("a", "b") } : booksearcher.Book).addISBN "n/a" = { isbn := ("a", "b") } ∧
    ((({} : bsearch.Book).addISBN "0306406152").addISBN "030640615X").isbn
      = ("030640615X", "") :=
  ⟨by decide, by decide, by decide, by decide,
   ((addISBN_slots {} {} "0306406152" "").1 (by decide)).2.1,
   ((addISBN_slots {} {} "9780306406157" "").2.1 (by decide)).2.1,
   ((addISBN_slots { isbn := ("a", "b") } {} "n/a" "").2.2.1 (by decide) (by decide)).1,
   ((addISBN_slots {} {} "0306406152" "030640615X").2.2.2.1 (by decide) (by decide)).2⟩

/-! ## The price table -/

theorem ParseFloat_10_00 : ParseFloat "10.00" = some 10 := by
  have h : readFloat "10.00" = some (false, 1000, -2) := by decide
  simp only [ParseFloat, h, decimalValue, float32Overflow]
  norm_num

theorem contains_amazon : Contains "Amazon Logo" "Amazon" = true := by decide

/-- C5 (amended). On the stream of scenario 2 with arbitrary cell texts, started
on any book with enough fuel, `getPrices` returns without error and writes at
most one cell, in the row of Amazon: the vendor arm is cleared by the first
non-blank text, so only the first non-blank one of the three texts is written,
to the column of its position, and the later texts are not consumed. -/
theorem getPrices_amazonRow (n : Nat) (b : bsearch.Book) (t1 t2 t3 : String) (v : ℚ) :
    (TrimSpace (TrimPrefix (EscapeString t1) "$") ≠ "" →
      ParseFloat (TrimSpace (TrimPrefix (EscapeString t1) "$")) = some v →
      bsearch.getPrices (n + 9) (amazonRow t1 t2 t3) b = some (Run.done
        ({ b with Comm := { b.Comm with Amazon := { b.Comm.Amazon with New := v } } }, none))) ∧
    (TrimSpace (TrimPrefix (EscapeString t1) "$") = "" →
      TrimSpace (TrimPrefix (EscapeString t2) "$") ≠ "" →
      ParseFloat (TrimSpace (TrimPrefix (EscapeString t2) "$")) = some v →
      bsearch.getPrices (n + 9) (amazonRow t1 t2 t3) b = some (Run.done
        ({ b with Comm := { b.Comm with Amazon := { b.Comm.Amazon with Used := v } } }, none))) ∧
    (TrimSpace (TrimPrefix (EscapeString t1) "$") = "" →
      TrimSpace (TrimPrefix (EscapeString t2) "$") = "" →
      TrimSpace (TrimPrefix (EscapeString t3) "$") ≠ "" →
      ParseFloat (TrimSpace (TrimPrefix (EscapeString t3) "$")) = some v →
      bsearch.getPrices (n + 9) (amazonRow t1 t2 t3) b = some (Run.done
        ({ b with Comm := { b.Comm with Amazon := { b.Comm.Amazon with Rent := v } } }, none))) ∧
    (TrimSpace (TrimPrefix (EscapeString t1) "$") = "" →
      TrimSpace (TrimPrefix (EscapeString t2) "$") = "" →
      TrimSpace (TrimPrefix (EscapeString t3) "$") = "" →
      bsearch.getPrices (n + 9) (amazonRow t1 t2 t3) b = some (Run.done (b, none))) := by
  refine ⟨?_, ?_, ?_, ?_⟩
  · intro h1 h2
    simp [bsearch.getPrices, bsearch.getPricesLoop, bsearch.getPricesStep, Next, amazonRow,
      startTag, textToken, Token.String, bsearch.armVendor, bsearch.writeQuote, contains_amazon,
      h1, h2]
  · intro h1 h2 h3
    simp [bsearch.getPrices, bsearch.getPricesLoop, bsearch.getPricesStep, Next, amazonRow,
      startTag, textToken, Token.String, bsearch.armVendor, bsearch.writeQuote, contains_amazon,
      h1, h2, h3]
  · intro h1 h2 h3 h4
    simp [bsearch.getPrices, bsearch.getPricesLoop, bsearch.getPricesStep, Next, amazonRow,
      startTag, textToken, Token.String, bsearch.armVendor, bsearch.writeQuote, contains_amazon,
      h1, h2, h3, h4]
  · intro h1 h2 h3
    simp [bsearch.getPrices, bsearch.getPricesLoop, bsearch.getPricesStep, Next, amazonRow,
      startTag, textToken, Token.String, bsearch.armVendor, bsearch.writeQuote, contains_amazon,
      h1, h2, h3]

theorem ParseFloat_5_00 : ParseFloat "5.00" = some 5 := by
  have h : readFloat "5.00" = some (false, 500, -2) := by decide
  simp only [ParseFloat, h, decimalValue, float32Overflow]
  norm_num

theorem ParseFloat_7_50 : ParseFloat "7.50" = some (15 / 2) := by
  have h : readFloat "7.50" = some (false, 750, -2) := by decide
  simp only [ParseFloat, h, decimalValue, float32Overflow]
  norm_num

theorem cell_10_00 : TrimSpace (TrimPrefix (EscapeString "$10.00") "$") = "10.00" := by decide

theorem cell_5_00 : TrimSpace (TrimPrefix (EscapeString "$5.00") "$") = "5.00" := by decide

theorem cell_7_50 : TrimSpace (TrimPrefix (EscapeString "$7.50") "$") = "7.50" := by decide

theorem cell_empty : TrimSpace (TrimPrefix (EscapeString "") "$") = "" := by decide

theorem cell_blank : TrimSpace (TrimPrefix (EscapeString " ") "$") = "" := by decide

theorem getPrices_scenario2_run (fuel : Nat) :
    bsearch.getPrices fuel (amazonRow "$10.00" "" "$5.00") {} = none ∨
    bsearch.getPrices fuel (amazonRow "$10.00" "" "$5.00") {}
      = some (Run.done ({ Comm := { Amazon := { New := 10, Used := 0, Rent := 0 } } }, none)) := by
  rcases Nat.lt_or_ge fuel 9 with h | h
  · left
    interval_cases fuel <;>
      simp [bsearch.getPrices, bsearch.getPricesLoop, bsearch.getPricesStep, Next, amazonRow,
        startTag, textToken, Token.String, bsearch.armVendor, bsearch.writeQuote, contains_amazon,
        cell_10_00, cell_5_00, cell_empty, ParseFloat_10_00, ParseFloat_5_00]
  · right
    obtain ⟨n, rfl⟩ := Nat.exists_eq_add_of_le' h
    simp [bsearch.getPrices, bsearch.getPricesLoop, bsearch.getPricesStep, Next, amazonRow,
      startTag, textToken, Token.String, bsearch.armVendor, bsearch.writeQuote, contains_amazon,
      cell_10_00, cell_5_00, cell_empty, ParseFloat_10_00, ParseFloat_5_00]

/-- C5 (counterexample). On the stream of scenario 2, started on a fresh book,
`getPrices` returns a book whose Amazon row has `New = 10` and `Rent = 0`; with
no amount of fuel does it return a book with `Rent = 5`. -/
theorem getPrices_scenario2_rent_not_filled :
    bsearch.getPrices 9 (amazonRow "$10.00" "" "$5.00") {}
      = some (Run.done ({ Comm := { Amazon := { New := 10, Used := 0, Rent := 0 } } }, none)) ∧
    ¬ ∃ fuel b, bsearch.getPrices fuel (amazonRow "$10.00" "" "$5.00") {}
      = some (Run.done (b, none)) ∧ b.Comm.Amazon = { New := 10, Used := 0, Rent := 5 } := by
  constructor
  · rcases getPrices_scenario2_run 9 with h | h
    · exact absurd h (by
        simp [bsearch.getPrices, bsearch.getPricesLoop, bsearch.getPricesStep, Next, amazonRow,
          startTag, textToken, Token.String, bsearch.armVendor, bsearch.writeQuote,
          contains_amazon, cell_10_00, cell_5_00, cell_empty, ParseFloat_10_00, ParseFloat_5_00])
    · exact h
  · rintro ⟨fuel, b, h, hb⟩
    rcases getPrices_scenario2_run fuel with h' | h'
    · rw [h'] at h; exact absurd h (by simp)
    · rw [h'] at h
      simp only [Option.some.injEq, Run.done.injEq, Prod.mk.injEq, and_true] at h
      subst h
      simp at hb

/-- C5, at the streams with the cell texts `$10.00`, (empty), `$5.00` (scenario
2: only `New` is written), (empty), `$7.50`, `$5.00` (only `Used`), (empty),
(blank), `$5.00` (only `Rent`) and three blank texts (nothing). -/
theorem getPrices_amazonRow_witness :
    bsearch.getPrices 9 (amazonRow "$10.00" "" "$5.00") {}
      = some (Run.done ({ Comm := { Amazon := { New := 10, Used := 0, Rent := 0 } } }, none)) ∧
    bsearch.getPrices 9 (amazonRow "" "$7.50" "$5.00") {}
      = some (Run.done ({ Comm := { Amazon := { New := 0, Used := 15 / 2, Rent := 0 } } }, none)) ∧
    bsearch.getPrices 9 (amazonRow "" " " "$5.00") {}
      = some (Run.done ({ Comm := { Amazon := { New := 0, Used := 0, Rent := 5 } } }, none)) ∧
    bsearch.getPrices 9 (amazonRow "" " " "") {} = some (Run.done ({}, none)) :=
  ⟨(getPrices_amazonRow 0 {} "$10.00" "" "$5.00" 10).1
      (by rw [cell_10_00]; decide) (by rw [cell_10_00]; exact ParseFloat_10_00),
   (getPrices_amazonRow 0 {} "" "$7.50" "$5.00" (15 / 2)).2.1 cell_empty
      (by rw [cell_7_50]; decide) (by rw [cell_7_50]; exact ParseFloat_7_50),
   (getPrices_amazonRow 0 {} "" " " "$5.00" 5).2.2.1 cell_empty cell_blank
      (by rw [cell_5_00]; decide) (by rw [cell_5_00]; exact ParseFloat_5_00),
   (getPrices_amazonRow 0 {} "" " " "" 0).2.2.2 cell_empty cell_blank cell_empty⟩

/-! ## Splitting and trimming -/

theorem splitChars_ne_nil (sep : Char) (l : List Char) : splitChars sep l ≠ [] := by
  cases l with
  | nil => simp [splitChars]
  | cons c cs =>
    unfold splitChars
    split
    · simp
    · split <;> simp

theorem joinWith_splitChars (sep : Char) (l : List Char) :
    joinWith sep (splitChars sep l) = l := by
  induction l with
  | nil => simp [splitChars, joinWith]
  | cons c cs ih =>
    unfold splitChars
    split
    · rename_i h
      cases hs : splitChars sep cs with
      | nil => exact absurd hs (splitChars_ne_nil sep cs)
      | cons p ps =>
        rw [hs] at ih
        simp [joinWith, ih, h]
    · cases hs : splitChars sep cs with
      | nil => exact absurd hs (splitChars_ne_nil sep cs)
      | cons p ps =>
        rw [hs] at ih
        cases ps with
        | nil => simpa [joinWith] using ih
        | cons q r =>
          simp only [joinWith] at ih ⊢
          simp [ih]

theorem splitChars_no_sep (sep : Char) (l : List Char) :
    ∀ p ∈ splitChars sep l, sep ∉ p := by
  induction l with
  | nil => simp [splitChars]
  | cons c cs ih =>
    unfold splitChars
    split
    · intro p hp
      rcases List.mem_cons.1 hp with rfl | hp
      · simp
      · exact ih p hp
    · rename_i h
      cases hs : splitChars sep cs with
      | nil => exact absurd hs (splitChars_ne_nil sep cs)
      | cons q qs =>
        rw [hs] at ih
        intro p hp
        rcases List.mem_cons.1 hp with rfl | hp
        · intro hmem
          rcases List.mem_cons.1 hmem with heq | hmem
          · exact h heq.symm
          · exact ih q (List.mem_cons_self _ _) hmem
        · exact ih p (List.mem_cons_of_mem _ hp)

theorem splitChars_length (sep : Char) (l : List Char) :
    (splitChars sep l).length = l.count sep + 1 := by
  induction l with
  | nil => simp [splitChars]
  | cons c cs ih =>
    unfold splitChars
    split
    · rename_i h
      simp [ih, h]
    · rename_i h
      cases hs : splitChars sep cs with
      | nil => exact absurd hs (splitChars_ne_nil sep cs)
      | cons q qs =>
        rw [hs] at ih
        have hne : (c == sep) = false := by simpa using h
        simpa [List.count_cons, hne] using ih

theorem rdropWhile_append_rtakeWhile (p : Char → Bool) (l : List Char) :
    l.rdropWhile p ++ l.rtakeWhile p = l := by
  have h : (l.reverse.takeWhile p ++ l.reverse.dropWhile p).reverse = l := by
    rw [List.takeWhile_append_dropWhile, List.reverse_reverse]
  rw [List.reverse_append] at h
  exact h

theorem TrimSpace_decompose (x : String) :
    ∃ w1 w2 : List Char, x.data = w1 ++ (TrimSpace x).data ++ w2 ∧
      (∀ c ∈ w1, isSpace c = true) ∧ (∀ c ∈ w2, isSpace c = true) := by
  refine ⟨x.data.takeWhile isSpace, (x.data.dropWhile isSpace).rtakeWhile isSpace, ?_, ?_, ?_⟩
  · simp only [TrimSpace, List.append_assoc, rdropWhile_append_rtakeWhile,
      List.takeWhile_append_dropWhile]
  · intro c hc
    exact List.mem_takeWhile_imp hc
  · intro c hc
    exact List.mem_rtakeWhile_imp hc

theorem TrimSpace_head (x : String) (c : Char) (h : (TrimSpace x).data.head? = some c) :
    isSpace c = false := by
  simp only [TrimSpace] at h
  obtain ⟨t, ht⟩ := List.rdropWhile_prefix isSpace (l := x.data.dropWhile isSpace)
  cases hr : (x.data.dropWhile isSpace).rdropWhile isSpace with
  | nil => rw [hr] at h; simp at h
  | cons a r =>
    rw [hr] at h ht
    simp only [List.head?_cons, Option.some.injEq] at h
    subst h
    have hne : x.data.dropWhile isSpace ≠ [] := by rw [← ht]; simp
    have := List.head_dropWhile_not isSpace x.data hne
    simpa [← ht] using this

theorem TrimSpace_last (x : String) (c : Char) (h : (TrimSpace x).data.getLast? = some c) :
    isSpace c = false := by
  simp only [TrimSpace] at h
  have hne : (x.data.dropWhile isSpace).rdropWhile isSpace ≠ [] := by
    intro h0; rw [h0] at h; simp at h
  have := List.rdropWhile_last_not isSpace (x.data.dropWhile isSpace) hne
  rw [List.getLast?_eq_getLast _ hne] at h
  simp only [Option.some.injEq] at h
  subst h
  simpa using this

theorem addAuthors_eq_bs (b : bsearch.Book) (auths : List String) :
    b.addAuthors auths = { b with authors := b.authors ++ auths.map TrimSpace } := by
  unfold bsearch.Book.addAuthors
  induction auths generalizing b with
  | nil => simp
  | cons a l ih => simp [List.foldl, ih]

theorem addPublishers_eq_bs (b : bsearch.Book) (publ : List String) :
    b.addPublishers publ = { b with publishers := b.publishers ++ publ.map TrimSpace } := by
  unfold bsearch.Book.addPublishers
  induction publ generalizing b with
  | nil => simp
  | cons a l ih => simp [List.foldl, ih]

/-- C6. For every string `s` and every book, `addAuthors(strings.Split(s, ";"))`
(and `addPublishers`), in both packages, changes only the list, keeps the stored
entries in place and appends after them, in order, the trimmed pieces of `s`.
The pieces are exactly the parts of `s` between the `;`: joined with `;` they
give `s` back, none contains a `;`, and there is one more piece than there are
`;` in `s`. Trimming removes white space only, at both ends, and leaves no
white space at either end. For `A; B ;C` on an empty list the result is
`A`, `B`, `C`. -/
theorem addAuthors_split (b : booksearcher.Book) (c : bsearch.Book) (s : String) :
    b.addAuthors (Split s ';')
      = { b with authors := b.authors ++ (Split s ';').map TrimSpace } ∧
    b.addPublishers (Split s ';')
      = { b with publishers := b.publishers ++ (Split s ';').map TrimSpace } ∧
    c.addAuthors (Split s ';')
      = { c with authors := c.authors ++ (Split s ';').map TrimSpace } ∧
    c.addPublishers (Split s ';')
      = { c with publishers := c.publishers ++ (Split s ';').map TrimSpace } ∧
    joinWith ';' ((Split s ';').map String.data) = s.data ∧
    (∀ p ∈ Split s ';', ';' ∉ p.data) ∧
    (Split s ';').length = s.data.count ';' + 1 ∧
    (∀ p : String, ∃ w1 w2 : List Char, p.data = w1 ++ (TrimSpace p).data ++ w2 ∧
      (∀ x ∈ w1, isSpace x = true) ∧ (∀ x ∈ w2, isSpace x = true) ∧
      (∀ x, (TrimSpace p).data.head? = some x → isSpace x = false) ∧
      (∀ x, (TrimSpace p).data.getLast? = some x → isSpace x = false)) ∧
    (({} : booksearcher.Book).addAuthors (Split "A; B ;C" ';')).GetAuthors = ["A", "B", "C"] ∧
    (({} : booksearcher.Book).addPublishers (Split "A; B ;C" ';')).GetPublishers
      = ["A", "B", "C"] := by
  refine ⟨addAuthors_eq _ _, addPublishers_eq _ _, addAuthors_eq_bs _ _, addPublishers_eq_bs _ _,
    ?_, ?_, ?_, ?_, by decide, by decide⟩
  · simp only [Split, List.map_map]
    have : (String.data ∘ String.mk) = id := by funext l; rfl
    rw [this, List.map_id, joinWith_splitChars]
  · intro p hp
    simp only [Split, List.mem_map] at hp
    obtain ⟨q, hq, rfl⟩ := hp
    exact splitChars_no_sep ';' s.data q hq
  · simp [Split, splitChars_length]
  · intro p
    obtain ⟨w1, w2, h, h1, h2⟩ := TrimSpace_decompose p
    exact ⟨w1, w2, h, h1, h2, TrimSpace_head p, TrimSpace_last p⟩

/-- C6, at the value `A; B ;C` added to a list that already holds `Z`. -/
theorem addAuthors_split_witness :
    (({ authors := ["Z"] } : booksearcher.Book).addAuthors (Split "A; B ;C" ';')).GetAuthors
      = ["Z", "A", "B", "C"] ∧
    " B " ∈ Split "A; B ;C" ';' ∧ ';' ∉ " B ".data ∧
    (TrimSpace " B ").data.head? = some 'B' ∧ isSpace 'B' = false :=
  ⟨by rw [(addAuthors_split { authors := ["Z"] } {} "A; B ;C").1]; decide,
   by decide,
   (addAuthors_split {} {} "A; B ;C").2.2.2.2.2.1 " B " (by decide),
   by decide,
   ((addAuthors_split {} {} "A; B ;C").2.2.2.2.2.2.2.1 " B ").choose_spec.choose_spec.2.2.2.1 'B'
     (by decide)⟩

/-! ## The splitter on the empty string -/

theorem split_empty : Split "" ';' = [""] := by decide

theorem trim_empty : TrimSpace "" = "" := by decide

theorem escape_empty : EscapeString "" = "" := by decide

/-- C7 (counterexample). `strings.Split("", ";")` is the one-element slice
holding the empty string, so on a book without authors
`addAuthors(strings.Split("", ";"))` leaves one author, the empty string: the
list has length 1 and not 0, also when the text is dispatched by the loop of
`getBookInfo` at index 3. -/
theorem addAuthors_split_empty_appends :
    (({} : booksearcher.Book).addAuthors (Split "" ';')).GetAuthors = [""] ∧
    (({} : booksearcher.Book).addAuthors (Split "" ';')).GetAuthors.length
      ≠ ({} : booksearcher.Book).GetAuthors.length ∧
    booksearcher.getBookInfoStep offline { binfo := true, info := true, i := 3 } (textToken "")
      = Run.done { binfo := true, info := false, i := 3, book := { authors := [""] } } ∧
    bsearch.getBookInfoStep offline { binfo := true, info := true, i := 3 } (textToken "")
      = { binfo := true, info := false, i := 3, book := { authors := [""] } } := by
  refine ⟨by decide, by decide, by decide, by decide⟩

/-- C7 (amended). The splitter applied to the empty string yields one empty
piece: in both packages `addAuthors(strings.Split("", ";"))` (and
`addPublishers`) appends exactly one entry, the empty string, after the stored
entries, so the list is one longer than before; the same happens when the text
`""` is dispatched, armed, at index 3 (authors) or index 6 (publishers). -/
theorem addAuthors_split_empty (env : Env) (b : booksearcher.Book) (c : bsearch.Book)
    (s : booksearcher.Scan) (t : bsearch.Scan) :
    (b.addAuthors (Split "" ';')) = { b with authors := b.authors ++ [""] } ∧
    (b.addAuthors (Split "" ';')).GetAuthors.length = b.GetAuthors.length + 1 ∧
    (b.addPublishers (Split "" ';')) = { b with publishers := b.publishers ++ [""] } ∧
    (b.addPublishers (Split "" ';')).GetPublishers.length = b.GetPublishers.length + 1 ∧
    (c.addAuthors (Split "" ';')) = { c with authors := c.authors ++ [""] } ∧
    (c.addPublishers (Split "" ';')) = { c with publishers := c.publishers ++ [""] } ∧
    booksearcher.getBookInfoStep env { s with binfo := true, info := true, i := 3 } (textToken "")
      = Run.done { s with binfo := true, info := false, i := 3,
                          book := { s.book with authors := s.book.authors ++ [""] } } ∧
    booksearcher.getBookInfoStep env { s with binfo := true, info := true, i := 6 } (textToken "")
      = Run.done { s with binfo := true, info := false, i := 6,
                          book := { s.book with publishers := s.book.publishers ++ [""] } } ∧
    bsearch.getBookInfoStep env { t with binfo := true, info := true, i := 3 } (textToken "")
      = { t with binfo := true, info := false, i := 3,
                 book := { t.book with authors := t.book.authors ++ [""] } } ∧
    bsearch.getBookInfoStep env { t with binfo := true, info := true, i := 6 } (textToken "")
      = { t with binfo := true, info := false, i := 6,
                 book := { t.book with publishers := t.book.publishers ++ [""] } } := by
  refine ⟨?_, ?_, ?_, ?_, ?_, ?_, ?_, ?_, ?_, ?_⟩
  · simp [addAuthors_eq, split_empty, trim_empty]
  · simp [addAuthors_eq, split_empty, booksearcher.Book.GetAuthors]
  · simp [addPublishers_eq, split_empty, trim_empty]
  · simp [addPublishers_eq, split_empty, booksearcher.Book.GetPublishers]
  · simp [addAuthors_eq_bs, split_empty, trim_empty]
  · simp [addPublishers_eq_bs, split_empty, trim_empty]
  · simp [booksearcher.getBookInfoStep, booksearcher.dispatchText, textToken, Token.String,
      addAuthors_eq, escape_empty, split_empty, trim_empty]
  · simp [booksearcher.getBookInfoStep, booksearcher.dispatchText, textToken, Token.String,
      addPublishers_eq, escape_empty, split_empty, trim_empty]
  · simp [bsearch.getBookInfoStep, bsearch.dispatchText, textToken, Token.String,
      addAuthors_eq_bs, escape_empty, split_empty, trim_empty]
  · simp [bsearch.getBookInfoStep, bsearch.dispatchText, textToken, Token.String,
      addPublishers_eq_bs, escape_empty, split_empty, trim_empty]

/-! ## The list price -/

theorem floatChar_not_space (c : Char) (h : floatChar c = true) : isSpace c = false := by
  simp only [floatChar, isDigit, Bool.or_eq_true, Bool.and_eq_true, decide_eq_true_eq] at h
  simp only [isSpace, Bool.or_eq_false_iff, Bool.and_eq_false_iff, beq_eq_false_iff_ne,
    decide_eq_false_iff_not, ne_eq]
  omega

theorem floatChar_not_dollar (c : Char) (h : floatChar c = true) : c ≠ '$' := by
  intro hc
  subst hc
  exact absurd h (by decide)

theorem readSign_chars (l : List Char) (h : ∀ c ∈ (readSign l).2, floatChar c = true) :
    ∀ c ∈ l, floatChar c = true := by
  cases l with
  | nil => simp
  | cons a as =>
    simp only [readSign] at h
    split at h
    · rename_i ha
      intro c hc
      rcases List.mem_cons.1 hc with rfl | hc
      · subst ha; decide
      · exact h c hc
    · split at h
      · rename_i ha
        intro c hc
        rcases List.mem_cons.1 hc with rfl | hc
        · subst ha; decide
        · exact h c hc
      · exact h

theorem digit_floatChar (c : Char) (h : isDigit c = true) : floatChar c = true := by
  simp [floatChar, h]

theorem readExponent_chars (l : List Char) (e : Int) (h : readExponent l = some e) :
    ∀ c ∈ l, floatChar c = true := by
  cases l with
  | nil => simp
  | cons a as =>
    simp only [readExponent] at h
    split at h
    · rename_i ha
      split at h
      · rename_i hd
        intro c hc
        rcases List.mem_cons.1 hc with rfl | hc
        · rcases ha with ha | ha <;> (subst ha; decide)
        · apply readSign_chars as _ c hc
          intro x hx
          exact digit_floatChar x (List.all_eq_true.1 hd.2 x hx)
      · exact absurd h (by simp)
    · exact absurd h (by simp)

theorem readFraction_chars (l : List Char)
    (h : ∀ c ∈ (readFraction l).2, floatChar c = true) : ∀ c ∈ l, floatChar c = true := by
  cases l with
  | nil => simp
  | cons a as =>
    simp only [readFraction] at h
    split at h
    · rename_i ha
      intro c hc
      rcases List.mem_cons.1 hc with rfl | hc
      · subst ha; decide
      · rw [← List.takeWhile_append_dropWhile isDigit as] at hc
        rcases List.mem_append.1 hc with hc | hc
        · exact digit_floatChar c (List.mem_takeWhile_imp hc)
        · exact h c hc
    · exact h

theorem readFloat_chars (s : String) (r : Bool × Nat × Int) (h : readFloat s = some r) :
    s.data ≠ [] ∧ ∀ c ∈ s.data, floatChar c = true := by
  unfold readFloat at h
  simp only at h
  split at h
  · exact absurd h (by simp)
  · rename_i hne
    split at h
    · exact absurd h (by simp)
    · rename_i e he
      constructor
      · intro hnil
        apply hne
        simp [hnil, readSign, readFraction]
      · apply readSign_chars
        intro c hc
        rw [← List.takeWhile_append_dropWhile isDigit (readSign s.data).2] at hc
        rcases List.mem_append.1 hc with hc | hc
        · exact digit_floatChar c (List.mem_takeWhile_imp hc)
        · exact readFraction_chars _ (readExponent_chars _ e he) c hc

theorem ParseFloat_chars (s : String) (v : ℚ) (h : ParseFloat s = some v) :
    s.data ≠ [] ∧ ∀ c ∈ s.data, floatChar c = true := by
  unfold ParseFloat at h
  cases hr : readFloat s with
  | none => rw [hr] at h; exact absurd h (by simp)
  | some r => exact readFloat_chars s r hr

theorem replaceChars_not_mem (old : Char) (l : List Char) (h : old ∉ l) :
    replaceChars old [] 1 l = l := by
  induction l with
  | nil => rfl
  | cons a as ih =>
    have ha : a ≠ old := fun e => h (by simp [e])
    have has : old ∉ as := fun e => h (List.mem_cons_of_mem _ e)
    simp [replaceChars, ha, ih has]

theorem replaceChars_first (old : Char) (l r : List Char) (h : old ∉ l) :
    replaceChars old [] 1 (l ++ old :: r) = l ++ r := by
  induction l with
  | nil => simp [replaceChars]
  | cons a as ih =>
    have ha : a ≠ old := fun e => h (by simp [e])
    have has : old ∉ as := fun e => h (List.mem_cons_of_mem _ e)
    simp [replaceChars, ha, ih has]

theorem trim_padded (w1 d w2 : List Char) (h1 : ∀ c ∈ w1, isSpace c = true)
    (h2 : ∀ c ∈ w2, isSpace c = true) (hd : ∀ c ∈ d, isSpace c = false) (hne : d ≠ []) :
    ((w1 ++ d ++ w2).dropWhile isSpace).rdropWhile isSpace = d := by
  have e1 : (w1 ++ d ++ w2).dropWhile isSpace = d ++ w2 := by
    rw [List.append_assoc, List.dropWhile_append_of_pos h1]
    cases d with
    | nil => exact absurd rfl hne
    | cons a as =>
      have : isSpace a = false := hd a (List.mem_cons_self _ _)
      simp [List.dropWhile, this]
  rw [e1, List.rdropWhile, List.reverse_append]
  have h2r : ∀ c ∈ w2.reverse, isSpace c = true := fun c hc => h2 c (List.mem_reverse.1 hc)
  rw [List.dropWhile_append_of_pos h2r]
  cases hr : d.reverse with
  | nil =>
    have : d = [] := by simpa using hr
    simp [this]
  | cons a as =>
    have : isSpace a = false := hd a (by
      have : a ∈ d.reverse := by rw [hr]; exact List.mem_cons_self _ _
      exact List.mem_reverse.1 this)
    simp only [List.dropWhile, this]
    rw [← hr, List.reverse_reverse]

theorem space_not_dollar (w : List Char) (h : ∀ c ∈ w, isSpace c = true) : '$' ∉ w := by
  intro hm
  exact absurd (h _ hm) (by decide)

theorem ParseFloat_12_34 : ParseFloat "12.34" = some (1234 / 100) := by
  have h : readFloat "12.34" = some (false, 1234, -2) := by decide
  simp only [ParseFloat, h, decimalValue, float32Overflow]
  norm_num

theorem ParseFloat_empty : ParseFloat "" = none := by
  have h : readFloat "" = none := by decide
  simp [ParseFloat, h]

theorem price_text_padded (d : String) (r : Bool × Nat × Int) (w1 w2 l l' : List Char)
    (hd : readFloat d = some r) (h1 : ∀ x ∈ w1, isSpace x = true)
    (h2 : ∀ x ∈ w2, isSpace x = true) (hs : l ++ l' = w1 ++ d.data ++ w2) :
    TrimSpace (Replace ⟨w1 ++ d.data ++ w2⟩ '$' "" 1) = d ∧
    TrimSpace (Replace ⟨l ++ '$' :: l'⟩ '$' "" 1) = d := by
  obtain ⟨hne, hch⟩ := readFloat_chars d r hd
  have hsp : ∀ c ∈ d.data, isSpace c = false := fun c hc => floatChar_not_space c (hch c hc)
  have hdl : '$' ∉ d.data := fun hm => floatChar_not_dollar _ (hch _ hm) rfl
  have n1 := space_not_dollar w1 h1
  have n2 := space_not_dollar w2 h2
  have nall : '$' ∉ w1 ++ d.data ++ w2 := by simp [n1, n2, hdl]
  have nl : '$' ∉ l := fun hm => nall (by rw [← hs]; exact List.mem_append_left _ hm)
  have empty_data : ("" : String).data = [] := rfl
  refine ⟨?_, ?_⟩
  · simp only [TrimSpace, Replace, empty_data]
    rw [replaceChars_not_mem _ _ nall, trim_padded w1 d.data w2 h1 h2 hsp hne]
  · simp only [TrimSpace, Replace, empty_data]
    rw [replaceChars_first _ _ _ nl, hs, trim_padded w1 d.data w2 h1 h2 hsp hne]

theorem price_text_blank (w : List Char) (h : ∀ x ∈ w, isSpace x = true) :
    TrimSpace (Replace ⟨w⟩ '$' "" 1) = "" := by
  have empty_data : ("" : String).data = [] := rfl
  simp only [TrimSpace, Replace, empty_data]
  rw [replaceChars_not_mem _ _ (space_not_dollar w h), List.dropWhile_eq_nil_iff.2 h]
  rfl

theorem ParseFloat_in_range (d : String) (r : Bool × Nat × Int) (hd : readFloat d = some r)
    (hlo : -float32Overflow < decimalValue r) (hhi : decimalValue r < float32Overflow) :
    ParseFloat d = some (decimalValue r) := by
  simp only [ParseFloat, hd]
  rw [if_pos ⟨hlo, hhi⟩]

theorem ParseFloat_out_of_range (d : String) (r : Bool × Nat × Int) (hd : readFloat d = some r)
    (h : float32Overflow ≤ decimalValue r ∨ decimalValue r ≤ -float32Overflow) :
    ParseFloat d = none := by
  simp only [ParseFloat, hd]
  rw [if_neg]
  rintro ⟨hlo, hhi⟩
  rcases h with h | h
  · exact absurd hhi (not_lt.2 h)
  · exact absurd hlo (not_lt.2 h)

theorem readFloat_1e40 : readFloat "1e40" = some (false, 1, 40) := by decide

theorem overflow_1e40 : float32Overflow ≤ decimalValue (false, 1, 40) := by
  simp only [decimalValue, float32Overflow]
  norm_num

theorem price_text_1e40 : TrimSpace (Replace "1e40" '$' "" 1) = "1e40" := by decide

theorem readFloat_big : readFloat "10000000000000000000000000000000000000000"
    = some (false, 10000000000000000000000000000000000000000, 0) := by decide

theorem overflow_big :
    float32Overflow ≤ decimalValue (false, 10000000000000000000000000000000000000000, 0) := by
  simp only [decimalValue, float32Overflow]
  norm_num

theorem price_text_big : TrimSpace (Replace "10000000000000000000000000000000000000000" '$' "" 1)
    = "10000000000000000000000000000000000000000" := by decide

/-- C8 (counterexample). The decimal literals `1e40` and 1 followed by forty
zeros are beyond the range of `float32`: `strconv.ParseFloat(·, 32)` returns a
range error on them, so in both packages `addPrice` returns an error and leaves
the list price as it was (here 3), where the claim has it succeed with the
value of the literal. -/
theorem addPrice_out_of_range_fails :
    readFloat "1e40" = some (false, 1, 40) ∧
    ({ msrp := 3 } : booksearcher.Book).addPrice "1e40"
      = ({ msrp := 3 }, some (GoError.numError "1e40")) ∧
    ({ msrp := 3 } : bsearch.Book).addPrice "1e40"
      = ({ msrp := 3 }, some (GoError.numError "1e40")) ∧
    (¬ ∃ b : booksearcher.Book,
      ({ msrp := 3 } : booksearcher.Book).addPrice "1e40" = (b, none)) ∧
    ({ msrp := 3 } : booksearcher.Book).addPrice "10000000000000000000000000000000000000000"
      = ({ msrp := 3 }, some (GoError.numError "10000000000000000000000000000000000000000")) := by
  have hp : ParseFloat "1e40" = none :=
    ParseFloat_out_of_range "1e40" _ readFloat_1e40 (Or.inl overflow_1e40)
  have hq : ParseFloat "10000000000000000000000000000000000000000" = none :=
    ParseFloat_out_of_range _ _ readFloat_big (Or.inl overflow_big)
  have h1 : ({ msrp := 3 } : booksearcher.Book).addPrice "1e40"
      = ({ msrp := 3 }, some (GoError.numError "1e40")) := by
    simp only [booksearcher.Book.addPrice, price_text_1e40, hp]
  refine ⟨readFloat_1e40, h1, ?_, ?_, ?_⟩
  · simp only [bsearch.Book.addPrice, price_text_1e40, hp]
  · rintro ⟨b, hb⟩
    rw [h1] at hb
    simp at hb
  · simp only [booksearcher.Book.addPrice, price_text_big, hq]

/-- C8 (amended). In both packages `addPrice` on each of `$12.34`, `12.34` and
` $ 12.34 ` returns no error and sets the list price to 1234/100 (prices are
exact rationals). In general, let `d` be a decimal literal with value `v`,
padded with any white space, with no `$` or with one `$` inserted at any
position (`l` and `l'` are the parts of the padded literal before and after
the `$`). If `v` is within the range of `float32` (its magnitude below
`2^128 - 2^103`), `addPrice` returns no error and sets the list price to `v`,
changing nothing else; if it is beyond that range, `addPrice` returns the
error and leaves the book unchanged. On the empty or a white-space-only string
it returns an error and leaves the book unchanged. -/
theorem addPrice_decimal (b : booksearcher.Book) (c : bsearch.Book) (d : String)
    (r : Bool × Nat × Int) (w1 w2 l l' : List Char) (hd : readFloat d = some r)
    (h1 : ∀ x ∈ w1, isSpace x = true) (h2 : ∀ x ∈ w2, isSpace x = true)
    (hs : l ++ l' = w1 ++ d.data ++ w2) :
    (b.addPrice "$12.34" = ({ b with msrp := 1234 / 100 }, none) ∧
     b.addPrice "12.34" = ({ b with msrp := 1234 / 100 }, none) ∧
     b.addPrice " $ 12.34 " = ({ b with msrp := 1234 / 100 }, none) ∧
     c.addPrice "$12.34" = ({ c with msrp := 1234 / 100 }, none) ∧
     c.addPrice "12.34" = ({ c with msrp := 1234 / 100 }, none) ∧
     c.addPrice " $ 12.34 " = ({ c with msrp := 1234 / 100 }, none)) ∧
    (-float32Overflow < decimalValue r → decimalValue r < float32Overflow →
     b.addPrice ⟨w1 ++ d.data ++ w2⟩ = ({ b with msrp := decimalValue r }, none) ∧
     b.addPrice ⟨l ++ '$' :: l'⟩ = ({ b with msrp := decimalValue r }, none) ∧
     c.addPrice ⟨w1 ++ d.data ++ w2⟩ = ({ c with msrp := decimalValue r }, none) ∧
     c.addPrice ⟨l ++ '$' :: l'⟩ = ({ c with msrp := decimalValue r }, none)) ∧
    (float32Overflow ≤ decimalValue r ∨ decimalValue r ≤ -float32Overflow →
     b.addPrice ⟨w1 ++ d.data ++ w2⟩ = (b, some (GoError.numError d)) ∧
     b.addPrice ⟨l ++ '$' :: l'⟩ = (b, some (GoError.numError d)) ∧
     c.addPrice ⟨w1 ++ d.data ++ w2⟩ = (c, some (GoError.numError d)) ∧
     c.addPrice ⟨l ++ '$' :: l'⟩ = (c, some (GoError.numError d))) ∧
    (b.addPrice ⟨w1⟩ = (b, some (GoError.numError "")) ∧
     c.addPrice ⟨w1⟩ = (c, some (GoError.numError ""))) := by
  have k1 : TrimSpace (Replace "$12.34" '$' "" 1) = "12.34" := by decide
  have k2 : TrimSpace (Replace "12.34" '$' "" 1) = "12.34" := by decide
  have k3 : TrimSpace (Replace " $ 12.34 " '$' "" 1) = "12.34" := by decide
  obtain ⟨p1, p2⟩ := price_text_padded d r w1 w2 l l' hd h1 h2 hs
  have pb := price_text_blank w1 h1
  refine ⟨⟨?_, ?_, ?_, ?_, ?_, ?_⟩, ?_, ?_, ?_, ?_⟩
  · simp only [booksearcher.Book.addPrice, k1, ParseFloat_12_34]
  · simp only [booksearcher.Book.addPrice, k2, ParseFloat_12_34]
  · simp only [booksearcher.Book.addPrice, k3, ParseFloat_12_34]
  · simp only [bsearch.Book.addPrice, k1, ParseFloat_12_34]
  · simp only [bsearch.Book.addPrice, k2, ParseFloat_12_34]
  · simp only [bsearch.Book.addPrice, k3, ParseFloat_12_34]
  · intro hlo hhi
    have hp := ParseFloat_in_range d r hd hlo hhi
    refine ⟨?_, ?_, ?_, ?_⟩ <;>
      simp only [booksearcher.Book.addPrice, bsearch.Book.addPrice, p1, p2, hp]
  · intro hout
    have hp := ParseFloat_out_of_range d r hd hout
    refine ⟨?_, ?_, ?_, ?_⟩ <;>
      simp only [booksearcher.Book.addPrice, bsearch.Book.addPrice, p1, p2, hp]
  · simp only [booksearcher.Book.addPrice, pb, ParseFloat_empty]
  · simp only [bsearch.Book.addPrice, pb, ParseFloat_empty]

theorem readFloat_12_34 : readFloat "12.34" = some (false, 1234, -2) := by decide

theorem value_12_34 : decimalValue (false, 1234, -2) = 1234 / 100 := by
  simp only [decimalValue]
  norm_num

theorem in_range_12_34 :
    -float32Overflow < decimalValue (false, 1234, -2) ∧
      decimalValue (false, 1234, -2) < float32Overflow := by
  simp only [decimalValue, float32Overflow]
  constructor <;> norm_num

/-- C8, at the literal `12.34` padded with one space before and two after, the
`$` inserted right before the literal; at the literal `1e40`, beyond the range,
padded in the same way; and at the blank string of one space. -/
theorem addPrice_decimal_witness :
    readFloat "12.34" = some (false, 1234, -2) ∧
    decimalValue (false, 1234, -2) = 1234 / 100 ∧
    (∀ x ∈ [' '], isSpace x = true) ∧ (∀ x ∈ [' ', ' '], isSpace x = true) ∧
    [' '] ++ "12.34  ".data = [' '] ++ "12.34".data ++ [' ', ' '] ∧
    ({} : booksearcher.Book).addPrice " 12.34  "
      = ({ msrp := decimalValue (false, 1234, -2) }, none) ∧
    ({} : bsearch.Book).addPrice " $12.34  "
      = ({ msrp := decimalValue (false, 1234, -2) }, none) ∧
    ({ msrp := 3 } : booksearcher.Book).addPrice " $1e40  "
      = ({ msrp := 3 }, some (GoError.numError "1e40")) ∧
    ({} : booksearcher.Book).addPrice " " = ({}, some (GoError.numError "")) :=
  ⟨readFloat_12_34, value_12_34, by decide, by decide, by decide,
   ((addPrice_decimal {} {} "12.34" (false, 1234, -2) [' '] [' ', ' '] [' '] "12.34  ".data
      readFloat_12_34 (by decide) (by decide) (by decide)).2.1
      in_range_12_34.1 in_range_12_34.2).1,
   ((addPrice_decimal {} {} "12.34" (false, 1234, -2) [' '] [' ', ' '] [' '] "12.34  ".data
      readFloat_12_34 (by decide) (by decide) (by decide)).2.1
      in_range_12_34.1 in_range_12_34.2).2.2.2,
   ((addPrice_decimal { msrp := 3 } {} "1e40" (false, 1, 40) [' '] [' ', ' '] [' ']
      "1e40  ".data readFloat_1e40 (by decide) (by decide) (by decide)).2.2.1
      (Or.inl overflow_1e40)).2.1,
   (addPrice_decimal {} {} "12.34" (false, 1234, -2) [' '] [' ', ' '] [' '] "12.34  ".data
      readFloat_12_34 (by decide) (by decide) (by decide)).2.2.2.1⟩

/-! ## Cell texts of the price table -/

theorem cell_dollar_12_34 : TrimSpace (TrimPrefix (EscapeString "$12.34") "$") = "12.34" := by
  decide

theorem cell_plain_12_34 : TrimSpace (TrimPrefix (EscapeString "12.34") "$") = "12.34" := by
  decide

theorem cell_padded_12_34 :
    TrimSpace (TrimPrefix (EscapeString " $ 12.34 ") "$") = "$ 12.34" := by
  decide

theorem ParseFloat_dollar_12_34 : ParseFloat "$ 12.34" = none := by
  have h : readFloat "$ 12.34" = none := by decide
  simp [ParseFloat, h]

/-- C9 (the code at the three cell texts). In `getPrices`, with Amazon armed
(and likewise with Barnes, BookRenter or Chegg armed and the vendors tested
before it not armed), the cell texts `$12.34` and `12.34` write 1234/100 to the
column `index` of the armed vendor and clear its arm; the cell text
` $ 12.34 ` makes `getPrices` panic: `TrimPrefix` finds no leading `$` in
front of the space, the trimmed text `$ 12.34` does not parse. -/
theorem getPricesStep_cell_texts (s : bsearch.Prices) (q : bsearch.Quote) :
    (bsearch.getPricesStep { s with amazon := true } (textToken "$12.34")
      = Run.done { s with amazon := false,
                          b.Comm.Amazon := bsearch.writeQuote s.b.Comm.Amazon s.index (1234 / 100) } ∧
     bsearch.getPricesStep { s with amazon := true } (textToken "12.34")
      = Run.done { s with amazon := false,
                          b.Comm.Amazon := bsearch.writeQuote s.b.Comm.Amazon s.index (1234 / 100) } ∧
     bsearch.getPricesStep { s with amazon := true } (textToken " $ 12.34 ")
      = Run.panic (GoError.numError "$ 12.34")) ∧
    (bsearch.getPricesStep { s with amazon := false, barnes := true } (textToken "$12.34")
      = Run.done { s with amazon := false, barnes := false,
                          b.Comm.Barnes := bsearch.writeQuote s.b.Comm.Barnes s.index (1234 / 100) } ∧
     bsearch.getPricesStep { s with amazon := false, barnes := true } (textToken " $ 12.34 ")
      = Run.panic (GoError.numError "$ 12.34")) ∧
    (bsearch.getPricesStep { s with amazon := false, barnes := false, brenter := true }
        (textToken "$12.34")
      = Run.done { s with amazon := false, barnes := false, brenter := false,
                          b.Comm.BookRenter :=
                            bsearch.writeQuote s.b.Comm.BookRenter s.index (1234 / 100) } ∧
     bsearch.getPricesStep { s with amazon := false, barnes := false, brenter := true }
        (textToken " $ 12.34 ")
      = Run.panic (GoError.numError "$ 12.34")) ∧
    (bsearch.getPricesStep
        { s with amazon := false, barnes := false, brenter := false, chegg := true }
        (textToken "$12.34")
      = Run.done { s with amazon := false, barnes := false, brenter := false, chegg := false,
                          b.Comm.Chegg := bsearch.writeQuote s.b.Comm.Chegg s.index (1234 / 100) } ∧
     bsearch.getPricesStep
        { s with amazon := false, barnes := false, brenter := false, chegg := true }
        (textToken " $ 12.34 ")
      = Run.panic (GoError.numError "$ 12.34")) ∧
    bsearch.writeQuote q 1 (1234 / 100) = { q with New := 1234 / 100 } ∧
    bsearch.writeQuote q 2 (1234 / 100) = { q with Used := 1234 / 100 } ∧
    bsearch.writeQuote q 3 (1234 / 100) = { q with Rent := 1234 / 100 } := by
  refine ⟨⟨?_, ?_, ?_⟩, ⟨?_, ?_⟩, ⟨?_, ?_⟩, ⟨?_, ?_⟩, ?_, ?_, ?_⟩
  all_goals
    simp [bsearch.getPricesStep, textToken, Token.String, cell_dollar_12_34, cell_plain_12_34,
      cell_padded_12_34, ParseFloat_12_34, ParseFloat_dollar_12_34, bsearch.writeQuote]

/-- C10. In `getPrices`, a text token whose text is empty after removing a
leading `$` and trimming white space is skipped in every state, in particular
in every state with a vendor armed: the iteration does not panic and leaves
the whole state unchanged (the vendor flags, the column index and the book with
its price table). The texts (empty), two spaces, `$` and `$` followed by a
space are of this kind. -/
theorem getPricesStep_blank_skipped (s : bsearch.Prices) (tag : Token)
    (ht : tag.Typ = TokenType.TextToken)
    (hb : TrimSpace (TrimPrefix tag.String "$") = "") :
    bsearch.getPricesStep s tag = Run.done s ∧
    TrimSpace (TrimPrefix (textToken "").String "$") = "" ∧
    TrimSpace (TrimPrefix (textToken "  ").String "$") = "" ∧
    TrimSpace (TrimPrefix (textToken "$").String "$") = "" ∧
    TrimSpace (TrimPrefix (textToken "$ ").String "$") = "" := by
  refine ⟨?_, by decide, by decide, by decide, by decide⟩
  unfold bsearch.getPricesStep
  rw [ht]
  simp only [hb, if_true]
  repeat' split
  all_goals rfl

/-- C10, at the text `$` followed by a space, with Chegg armed at column 2 and
a book that already has a price. -/
theorem getPricesStep_blank_skipped_witness :
    (textToken "$ ").Typ = TokenType.TextToken ∧
    TrimSpace (TrimPrefix (textToken "$ ").String "$") = "" ∧
    bsearch.getPricesStep
        { chegg := true, index := 2, b := { Comm := { Amazon := { New := 3 } } } }
        (textToken "$ ")
      = Run.done { chegg := true, index := 2, b := { Comm := { Amazon := { New := 3 } } } } :=
  ⟨rfl, by decide,
   (getPricesStep_blank_skipped
      { chegg := true, index := 2, b := { Comm := { Amazon := { New := 3 } } } }
      (textToken "$ ") rfl (by decide)).1⟩

/-! ## The pending error of the info-region loop -/

theorem price_text_abc : TrimSpace (Replace (EscapeString "abc") '$' "" 1) = "abc" := by decide

theorem price_text_5_00 : TrimSpace (Replace (EscapeString "$5.00") '$' "" 1) = "5.00" := by
  decide

theorem ParseFloat_abc : ParseFloat "abc" = none := by
  have h : readFloat "abc" = none := by decide
  simp [ParseFloat, h]

/-- C11 (the code at the failing inputs). In `booksearcher.getBookInfo` an
invalid list price `abc`, dispatched armed at index 8, makes the function panic
with the parse error when the terminal marker follows; but when an
`<img src="c.jpg"/>` that decodes follows it, or a second armed index-8 text
`$5.00`, the later assignment replaces the pending error by nil and the
function returns a record and no error. -/
theorem getBookInfo_price_error_overwritten (n : Nat) :
    booksearcher.getBookInfo online (n + 13) (toListPrice ++ [textToken "abc", terminalP])
      = some (Run.panic (GoError.numError "abc")) ∧
    booksearcher.getBookInfo online (n + 14)
        (toListPrice ++ [textToken "abc", imgTag "c.jpg", terminalP])
      = some (Run.done ({ cover := some { pixels := [99, 46, 106, 112, 103] } }, none)) ∧
    booksearcher.getBookInfo offline (n + 15)
        (toListPrice ++ [textToken "abc", endTag "strong", textToken "$5.00", terminalP])
      = some (Run.done ({ msrp := 5 }, none)) := by
  refine ⟨?_, ?_, ?_⟩
  · simp [booksearcher.getBookInfo, booksearcher.getBookInfoLoop, booksearcher.getBookInfoStep,
      booksearcher.dispatchText, booksearcher.Book.addPrice, Next, toListPrice, panelStart,
      terminalP, startTag, endTag, textToken, Token.String, List.replicate, price_text_abc,
      ParseFloat_abc]
  · simp [booksearcher.getBookInfo, booksearcher.getBookInfoLoop, booksearcher.getBookInfoStep,
      booksearcher.dispatchText, booksearcher.Book.addPrice, booksearcher.Book.addCover, Next,
      toListPrice, panelStart, terminalP, startTag, endTag, textToken, imgTag, Token.String,
      List.replicate, price_text_abc, ParseFloat_abc, online, StatusOK, HasSuffix, Except.map]
  · simp [booksearcher.getBookInfo, booksearcher.getBookInfoLoop, booksearcher.getBookInfoStep,
      booksearcher.dispatchText, booksearcher.Book.addPrice, Next, toListPrice, panelStart,
      terminalP, startTag, endTag, textToken, Token.String, List.replicate, price_text_abc,
      ParseFloat_abc, price_text_5_00, ParseFloat_5_00]

/-! ## Cover failures -/

theorem addCover_cases (env : Env) (b : booksearcher.Book) (url : String) :
    (∃ e, b.addCover env url = (b, some e)) ∨
      (∃ img, b.addCover env url = ({ b with cover := img }, none)) := by
  unfold booksearcher.Book.addCover
  cases env.Get url with
  | error err => exact Or.inl ⟨err, rfl⟩
  | ok response =>
    simp only
    by_cases hs : response.StatusCode ≠ StatusOK
    · rw [if_pos hs]; exact Or.inl ⟨_, rfl⟩
    · rw [if_neg hs]
      by_cases hj : HasSuffix url ".jpg" = true
      · simp only [hj, if_true]
        cases env.jpegDecode response.Body with
        | error err => exact Or.inl ⟨err, rfl⟩
        | ok img => exact Or.inr ⟨some img, rfl⟩
      · by_cases hp : HasSuffix url ".png" = true
        · simp only [hj, hp, if_true]
          cases env.pngDecode response.Body with
          | error err => exact Or.inl ⟨err, rfl⟩
          | ok img => exact Or.inr ⟨some img, rfl⟩
        · simp only [hj, hp]
          exact Or.inr ⟨none, rfl⟩

theorem addCover_error (env : Env) (b : booksearcher.Book) (url : String) (e : GoError)
    (h : (b.addCover env url).2 = some e) : b.addCover env url = (b, some e) := by
  rcases addCover_cases env b url with ⟨e1, h1⟩ | ⟨img, h1⟩
  · rw [h1] at h ⊢
    simp only [Option.some.injEq] at h
    rw [h]
  · rw [h1] at h
    exact absurd h (by simp)

theorem dispatchText_index (s s1 : booksearcher.Scan) (text : String)
    (h : booksearcher.dispatchText s text = Run.done s1) : s1.i = s.i :=
  (booksearcher.dispatchText_frame s s1 text h).2.2.2

theorem getBookInfoStep_index_le (env : Env) (s s1 : booksearcher.Scan) (tag : Token)
    (h : booksearcher.getBookInfoStep env s tag = Run.done s1) : s.i ≤ s1.i := by
  unfold booksearcher.getBookInfoStep at h
  split at h
  · dsimp only at h
    repeat' split at h
    all_goals (injection h with h; subst h; simp)
  · repeat' split at h
    all_goals (injection h with h; subst h; simp)
  · repeat' split at h
    all_goals (injection h with h; subst h; simp)
  · split at h
    · split at h
      · exact absurd h (by simp)
      · rename_i s2 hd
        injection h with h; subst h
        simp [dispatchText_index _ _ _ hd]
    · injection h with h; subst h; simp
  · injection h with h; subst h; simp

theorem getBookInfoLoop_index_le (env : Env) (fuel : Nat) :
    ∀ (s s' : booksearcher.Scan) (token rest : List Token),
      booksearcher.getBookInfoLoop env fuel s token = some (Run.done (s', rest)) → s.i ≤ s'.i := by
  induction fuel with
  | zero => intro s s' token rest h; simp [booksearcher.getBookInfoLoop] at h
  | succ n ih =>
    intro s s' token rest h
    unfold booksearcher.getBookInfoLoop at h
    split at h
    · simp only [Option.some.injEq, Run.done.injEq, Prod.mk.injEq] at h
      rw [h.1]
    · cases hstep : booksearcher.getBookInfoStep env s (Next token).1 with
      | panic e => rw [hstep] at h; simp at h
      | done s1 =>
        rw [hstep] at h
        exact Nat.le_trans (getBookInfoStep_index_le env s s1 _ hstep) (ih s1 s' _ rest h)

theorem dispatchText_err (s : booksearcher.Scan) (text : String) (x : Option GoError)
    (h8 : s.i ≠ 8) :
    booksearcher.dispatchText { s with err := x } text
      = (match booksearcher.dispatchText s text with
         | Run.done s1 => Run.done { s1 with err := x }
         | Run.panic e => Run.panic e) := by
  unfold booksearcher.dispatchText
  simp only [h8, false_and, if_false]
  split_ifs
  all_goals first
    | rfl
    | (cases s.book.addPublishedDate text <;> rfl)

theorem getBookInfoStep_err (env : Env) (s : booksearcher.Scan) (tag : Token)
    (x : Option GoError) (himg : imgWithSrc tag = false) (h8 : s.i ≠ 8) :
    booksearcher.getBookInfoStep env { s with err := x } tag
      = (match booksearcher.getBookInfoStep env s tag with
         | Run.done s1 => Run.done { s1 with err := x }
         | Run.panic e => Run.panic e) := by
  unfold booksearcher.getBookInfoStep
  cases ht : tag.Typ with
  | StartTagToken =>
    dsimp only
    split_ifs <;> rfl
  | SelfClosingTagToken =>
    simp only [imgWithSrc, ht, decide_True, Bool.true_and, Bool.and_eq_false_imp,
      decide_eq_true_eq] at himg
    dsimp only
    by_cases hd : tag.Data = "img"
    · have hn : tag.Attr.find? (fun cov => decide (cov.Key = "src")) = none := by
        rw [List.find?_eq_none]
        intro a ha
        have := himg hd
        simp only [List.any_eq_false, decide_eq_true_eq] at this
        simpa using this a ha
      simp [hd, hn]
    · simp [hd]
  | EndTagToken =>
    dsimp only
    split_ifs <;> rfl
  | TextToken =>
    dsimp only
    by_cases hb : s.binfo = true
    · rw [if_pos hb, if_pos hb, dispatchText_err s _ x h8]
      cases booksearcher.dispatchText s tag.String <;> rfl
    · rw [if_neg hb, if_neg hb]
  | ErrorToken => rfl
  | CommentToken => rfl
  | DoctypeToken => rfl

theorem getBookInfoLoop_err (env : Env) (x : Option GoError) (fuel : Nat) :
    ∀ (s s' : booksearcher.Scan) (token rest : List Token),
      (∀ t ∈ token, imgWithSrc t = false) →
      booksearcher.getBookInfoLoop env fuel s token = some (Run.done (s', rest)) →
      (s'.i < 8 ∨ 8 < s.i) →
      booksearcher.getBookInfoLoop env fuel { s with err := x } token
        = some (Run.done ({ s' with err := x }, rest)) := by
  induction fuel with
  | zero => intro s s' token rest _ h; simp [booksearcher.getBookInfoLoop] at h
  | succ n ih =>
    intro s s' token rest hno h hi
    unfold booksearcher.getBookInfoLoop at h ⊢
    by_cases hc : s.clear = true
    · rw [if_pos hc] at h
      simp only [Option.some.injEq, Run.done.injEq, Prod.mk.injEq] at h
      rw [if_pos hc, ← h.1, ← h.2]
    · rw [if_neg hc] at h
      rw [if_neg hc]
      have himg : imgWithSrc (Next token).1 = false := by
        cases token with
        | nil => rfl
        | cons t ts => exact hno t (List.mem_cons_self _ _)
      have hrest : ∀ t ∈ (Next token).2, imgWithSrc t = false := by
        cases token with
        | nil => simp [Next]
        | cons t ts => exact fun u hu => hno u (List.mem_cons_of_mem _ hu)
      cases hstep : booksearcher.getBookInfoStep env s (Next token).1 with
      | panic e => rw [hstep] at h; simp at h
      | done s1 =>
        rw [hstep] at h
        have hle := getBookInfoStep_index_le env s s1 _ hstep
        have hle' := getBookInfoLoop_index_le env n s1 s' _ rest h
        have h8 : s.i ≠ 8 := by omega
        rw [getBookInfoStep_err env s _ x himg h8, hstep]
        exact ih s1 s' _ rest hrest h (by omega)

/-- C12 (counterexample). With the network down, the stream with the panel
marker, a title, an `<img src="c.jpg"/>` and the terminal marker makes
`getBookInfo` panic with the error of the cover fetch, although every other
decoder succeeds and the same stream without the image returns the record. -/
theorem getBookInfo_cover_error_panics :
    booksearcher.getBookInfo offline 9
        [panelStart, startTag "h2", textToken "T", imgTag "c.jpg", terminalP]
      = some (Run.panic (GoError.transport "offline")) ∧
    booksearcher.getBookInfo offline 9 [panelStart, startTag "h2", textToken "T", terminalP]
      = some (Run.done ({ title := "T" }, none)) := by
  constructor <;> decide

/-- C12 (amended). A cover failure is fatal when no later decoder replaces it.
If `addCover` returns an error for a self-closing `<img>` with a `src`
attribute, the call leaves the record unchanged and the iteration only sets the
pending error to that error. If moreover the tokens that follow hold no further
`<img>` with `src`, and the loop on them (that is, without the image token)
reaches the terminal marker with the field index never at 8 (no list price is
dispatched), then the loop with the image token ends in the same state with the
cover error pending, and `getBookInfo`, when the image is the first token,
panics with that error and returns no record. -/
theorem getBookInfo_cover_error_fatal (env : Env) (fuel : Nat) (s s' : booksearcher.Scan)
    (img : Token) (src : Attribute) (e : GoError)
    (token rest : List Token)
    (hc : s.clear = false) (ht : img.Typ = TokenType.SelfClosingTagToken)
    (hd : img.Data = "img") (hsrc : img.Attr.find? (fun a => a.Key = "src") = some src)
    (he : (s.book.addCover env src.Val).2 = some e)
    (hno : ∀ t ∈ token, imgWithSrc t = false)
    (hrun : booksearcher.getBookInfoLoop env fuel s token = some (Run.done (s', rest)))
    (hi : s'.i < 8 ∨ 8 < s.i) :
    (s.book.addCover env src.Val).1 = s.book ∧
    booksearcher.getBookInfoStep env s img = Run.done { s with err := some e } ∧
    booksearcher.getBookInfoLoop env (fuel + 1) s (img :: token)
      = some (Run.done ({ s' with err := some e }, rest)) ∧
    (s = {} → booksearcher.getBookInfo env (fuel + 1) (img :: token) = some (Run.panic e)) := by
  have hadd := addCover_error env s.book src.Val e he
  have hstep : booksearcher.getBookInfoStep env s img = Run.done { s with err := some e } := by
    unfold booksearcher.getBookInfoStep
    rw [ht]
    simp only [hd, if_true, hsrc, hadd]
  have hloop : booksearcher.getBookInfoLoop env (fuel + 1) s (img :: token)
      = some (Run.done ({ s' with err := some e }, rest)) := by
    rw [booksearcher.getBookInfoLoop, if_neg (by simp [hc])]
    simp only [Next, hstep]
    exact getBookInfoLoop_err env (some e) fuel s s' token rest hno hrun hi
  refine ⟨by rw [hadd], hstep, hloop, ?_⟩
  intro hs
  subst hs
  simp [booksearcher.getBookInfo, hloop]

/-- C12, with the network down, at the stream that starts with
`<img src="c.jpg"/>` and goes on with the panel marker, a title and the
terminal marker. -/
theorem getBookInfo_cover_error_fatal_witness :
    booksearcher.getBookInfoLoop offline 5 {}
        [panelStart, startTag "h2", textToken "T", terminalP]
      = some (Run.done ({ book := { title := "T" }, clear := true, binfo := true }, [])) ∧
    (({} : booksearcher.Book).addCover offline "c.jpg").2
      = some (GoError.transport "offline") ∧
    booksearcher.getBookInfo offline 6
        [imgTag "c.jpg", panelStart, startTag "h2", textToken "T", terminalP]
      = some (Run.panic (GoError.transport "offline")) :=
  ⟨by decide, by decide,
   (getBookInfo_cover_error_fatal offline 5 {}
      { book := { title := "T" }, clear := true, binfo := true } (imgTag "c.jpg")
      { Key := "src", Val := "c.jpg" } (GoError.transport "offline")
      [panelStart, startTag "h2", textToken "T", terminalP] []
      rfl rfl rfl rfl (by decide) (by decide) (by decide) (by decide)).2.2.2 rfl⟩

/-! ## Tokens before the info panel -/

theorem find_src_none (tag : Token) (ht : tag.Typ = TokenType.SelfClosingTagToken)
    (hd : tag.Data = "img") (himg : imgWithSrc tag = false) :
    tag.Attr.find? (fun cov => decide (cov.Key = "src")) = none := by
  simp only [imgWithSrc, ht, hd, decide_True, Bool.true_and, List.any_eq_false,
    decide_eq_true_eq] at himg
  rw [List.find?_eq_none]
  intro a ha
  simpa using himg a ha

theorem getBookInfoStep_outside (env : Env) (s : booksearcher.Scan) (tag : Token)
    (hb : s.binfo = false) (hp : panelDiv tag = false) (himg : imgWithSrc tag = false) :
    booksearcher.getBookInfoStep env s tag = Run.done s := by
  unfold booksearcher.getBookInfoStep
  cases ht : tag.Typ with
  | StartTagToken =>
    have hdiv : (decide (tag.Data = "div") &&
        tag.Attr.any fun a => decide (a.Key = "class") && decide (a.Val = "bookinfo")) = false := by
      simpa [panelDiv, ht] using hp
    simp [hb, hdiv]
    cases s
    simp_all
  | SelfClosingTagToken =>
    dsimp only
    by_cases hd : tag.Data = "img"
    · simp [hd, find_src_none tag ht hd himg]
    · simp [hd]
  | EndTagToken => simp [hb]
  | TextToken => simp [hb]
  | ErrorToken => rfl
  | CommentToken => rfl
  | DoctypeToken => rfl

theorem getBookInfoStep_outside_bs (env : Env) (s : bsearch.Scan) (tag : Token)
    (hb : s.binfo = false) (hp : panelDiv tag = false) (himg : imgWithSrc tag = false) :
    bsearch.getBookInfoStep env s tag = s := by
  unfold bsearch.getBookInfoStep
  cases ht : tag.Typ with
  | StartTagToken =>
    have hdiv : (decide (tag.Data = "div") &&
        tag.Attr.any fun a => decide (a.Key = "class") && decide (a.Val = "bookinfo")) = false := by
      simpa [panelDiv, ht] using hp
    simp [hb, hdiv]
    cases s
    simp_all
  | SelfClosingTagToken =>
    dsimp only
    by_cases hd : tag.Data = "img"
    · simp [hd, find_src_none tag ht hd himg]
    · simp [hd]
  | EndTagToken => simp [hb]
  | TextToken => simp [hb]
  | ErrorToken => rfl
  | CommentToken => rfl
  | DoctypeToken => rfl

theorem getBookInfoLoop_skip (env : Env) (fuel : Nat) (s : booksearcher.Scan)
    (rest : List Token) (hb : s.binfo = false) (hc : s.clear = false) :
    ∀ pre : List Token, (∀ t ∈ pre, panelDiv t = false ∧ imgWithSrc t = false) →
      booksearcher.getBookInfoLoop env (pre.length + fuel) s (pre ++ rest)
        = booksearcher.getBookInfoLoop env fuel s rest := by
  intro pre
  induction pre with
  | nil => intro _; simp
  | cons t ts ih =>
    intro h
    have e : (t :: ts).length + fuel = (ts.length + fuel) + 1 := by simp; omega
    rw [e, booksearcher.getBookInfoLoop, if_neg (by simp [hc])]
    simp only [List.cons_append, Next]
    rw [getBookInfoStep_outside env s t hb (h t (List.mem_cons_self _ _)).1
      (h t (List.mem_cons_self _ _)).2]
    exact ih (fun u hu => h u (List.mem_cons_of_mem _ hu))

theorem getBookInfoLoop_skip_bs (env : Env) (fuel : Nat) (s : bsearch.Scan)
    (rest : List Token) (hb : s.binfo = false) (hc : s.clear = false) :
    ∀ pre : List Token, (∀ t ∈ pre, panelDiv t = false ∧ imgWithSrc t = false) →
      bsearch.getBookInfoLoop env (pre.length + fuel) s (pre ++ rest)
        = bsearch.getBookInfoLoop env fuel s rest := by
  intro pre
  induction pre with
  | nil => intro _; simp
  | cons t ts ih =>
    intro h
    have e : (t :: ts).length + fuel = (ts.length + fuel) + 1 := by simp; omega
    rw [e, bsearch.getBookInfoLoop, if_neg (by simp [hc])]
    simp only [List.cons_append, Next]
    rw [getBookInfoStep_outside_bs env s t hb (h t (List.mem_cons_self _ _)).1
      (h t (List.mem_cons_self _ _)).2]
    exact ih (fun u hu => h u (List.mem_cons_of_mem _ hu))

/-- C13 (counterexample). Before any info-panel marker, in the initial state,
the token `<img src="c.jpg"/>` makes both packages call `addCover`: with the
network up the record gets a cover, with the network down the pending error is
set. -/
theorem getBookInfoStep_image_before_panel :
    booksearcher.getBookInfoStep online {} (imgTag "c.jpg")
      = Run.done { book := { cover := some { pixels := [99, 46, 106, 112, 103] } } } ∧
    booksearcher.getBookInfoStep offline {} (imgTag "c.jpg")
      = Run.done { err := some (GoError.transport "offline") } ∧
    bsearch.getBookInfoStep online {} (imgTag "c.jpg")
      = { book := { cover := some { pixels := [99, 46, 106, 112, 103] } } } ∧
    bsearch.getBookInfoStep offline {} (imgTag "c.jpg")
      = { err := some (GoError.transport "offline") } := by
  refine ⟨by decide, by decide, by decide, by decide⟩

/-- C13 (amended). In both packages, while the panel flag is not set, a token
that is neither the info-panel marker nor a self-closing `<img>` with a `src`
attribute leaves the whole state unchanged (record, pending error, flags and
field index), so the loop run over a stream that starts with such tokens is the
run over the rest of the stream from the same state. A self-closing `<img>`
with a `src` attribute is handled before the panel as inside it: `addCover` is
called on the first `src` value and its results become the record and the
pending error. -/
theorem getBookInfo_before_panel (env : Env) (fuel : Nat) (s : booksearcher.Scan)
    (t : bsearch.Scan) (tag img : Token) (src : Attribute) (pre rest : List Token)
    (hs : s.binfo = false) (hsc : s.clear = false) (ht : t.binfo = false)
    (htc : t.clear = false)
    (hp : panelDiv tag = false) (himg : imgWithSrc tag = false)
    (hpre : ∀ u ∈ pre, panelDiv u = false ∧ imgWithSrc u = false)
    (hi : img.Typ = TokenType.SelfClosingTagToken) (hd : img.Data = "img")
    (hsrc : img.Attr.find? (fun a => a.Key = "src") = some src) :
    booksearcher.getBookInfoStep env s tag = Run.done s ∧
    bsearch.getBookInfoStep env t tag = t ∧
    booksearcher.getBookInfoLoop env (pre.length + fuel) s (pre ++ rest)
      = booksearcher.getBookInfoLoop env fuel s rest ∧
    bsearch.getBookInfoLoop env (pre.length + fuel) t (pre ++ rest)
      = bsearch.getBookInfoLoop env fuel t rest ∧
    booksearcher.getBookInfoStep env s img
      = Run.done { s with book := (s.book.addCover env src.Val).1,
                          err := (s.book.addCover env src.Val).2 } ∧
    bsearch.getBookInfoStep env t img
      = { t with book := (t.book.addCover env src.Val).1,
                 err := (t.book.addCover env src.Val).2 } := by
  refine ⟨getBookInfoStep_outside env s tag hs hp himg,
    getBookInfoStep_outside_bs env t tag ht hp himg,
    getBookInfoLoop_skip env fuel s rest hs hsc pre hpre,
    getBookInfoLoop_skip_bs env fuel t rest ht htc pre hpre, ?_, ?_⟩
  · unfold booksearcher.getBookInfoStep
    rw [hi]
    simp only [hd, if_true, hsrc]
  · unfold bsearch.getBookInfoStep
    rw [hi]
    simp only [hd, if_true, hsrc]

/-- C13, from the initial state, at the text token `Buy` and at the stream
`<html>`, `Buy`, `</strong>`, panel marker, terminal marker, with the image
`<img src="c.jpg"/>`. -/
theorem getBookInfo_before_panel_witness :
    panelDiv (textToken "Buy") = false ∧ imgWithSrc (textToken "Buy") = false ∧
    booksearcher.getBookInfoStep online {} (textToken "Buy") = Run.done {} ∧
    booksearcher.getBookInfoLoop online (3 + 3) {}
        ([startTag "html", textToken "Buy", endTag "strong"] ++ [panelStart, terminalP])
      = booksearcher.getBookInfoLoop online 3 {} [panelStart, terminalP] ∧
    bsearch.getBookInfoStep online {} (imgTag "c.jpg")
      = { book := (({} : bsearch.Book).addCover online "c.jpg").1,
          err := (({} : bsearch.Book).addCover online "c.jpg").2 } :=
  ⟨by decide, by decide,
   (getBookInfo_before_panel online 3 {} {} (textToken "Buy") (imgTag "c.jpg")
      { Key := "src", Val := "c.jpg" } [startTag "html", textToken "Buy", endTag "strong"]
      [panelStart, terminalP] rfl rfl rfl rfl (by decide) (by decide) (by decide)
      rfl rfl rfl).1,
   (getBookInfo_before_panel online 3 {} {} (textToken "Buy") (imgTag "c.jpg")
      { Key := "src", Val := "c.jpg" } [startTag "html", textToken "Buy", endTag "strong"]
      [panelStart, terminalP] rfl rfl rfl rfl (by decide) (by decide) (by decide)
      rfl rfl rfl).2.2.1,
   (getBookInfo_before_panel online 3 {} {} (textToken "Buy") (imgTag "c.jpg")
      { Key := "src", Val := "c.jpg" } [startTag "html", textToken "Buy", endTag "strong"]
      [panelStart, terminalP] rfl rfl rfl rfl (by decide) (by decide) (by decide)
      rfl rfl rfl).2.2.2.2.2⟩

/-! ## The title -/

/-- C14 (counterexample). On the stream `<div class="bookinfo">`, `<h2>`, `A`,
`<h2>`, `B`, `<p class="x">` the returned record has the title `B`, the text of
the second token dispatched at index 0, not `A`. -/
theorem getBookInfo_title_last_example :
    booksearcher.getBookInfo offline 7
        [panelStart, startTag "h2", textToken "A", startTag "h2", textToken "B", terminalP]
      = some (Run.done ({ title := "B" }, none)) ∧
    ({ title := "B" } : booksearcher.Book).GetTitle ≠ "A" := by
  constructor <;> decide

theorem addISBN_title (b : booksearcher.Book) (x : String) : (b.addISBN x).title = b.title := by
  unfold booksearcher.Book.addISBN
  split_ifs <;> rfl

theorem addCover_title (env : Env) (b : booksearcher.Book) (url : String) :
    (b.addCover env url).1.title = b.title := by
  rcases addCover_cases env b url with ⟨e, h⟩ | ⟨img, h⟩ <;> rw [h]

theorem addPrice_title (b : booksearcher.Book) (x : String) :
    (b.addPrice x).1.title = b.title := by
  rcases addPrice_frame b x with ⟨v, h⟩ | ⟨e, h⟩ <;> rw [h]

theorem dispatchText_title (s s1 : booksearcher.Scan) (text : String)
    (h : booksearcher.dispatchText s text = Run.done s1) :
    s1.book.title = if s.i = 0 ∧ s.info = true then text else s.book.title := by
  unfold booksearcher.dispatchText at h
  by_cases c0 : s.i = 0 ∧ s.info = true
  · rw [if_pos c0] at h
    rw [if_pos c0]
    injection h with h; subst h; rfl
  rw [if_neg c0] at h
  rw [if_neg c0]
  split_ifs at h
  all_goals first
    | (injection h with h; subst h
       first
         | rfl
         | exact addISBN_title _ _
         | exact addPrice_title _ _
         | (rw [addAuthors_eq])
         | (rw [addPublishers_eq]))
    | (simp only [booksearcher.Book.addPublishedDate] at h
       cases hp : timeParseMonthYear (TrimSpace text) with
       | none => rw [hp] at h; simp at h
       | some f =>
         rw [hp] at h
         simp only at h
         injection h with h; subst h; rfl)

theorem getBookInfoStep_title (env : Env) (s s1 : booksearcher.Scan) (tag : Token)
    (h : booksearcher.getBookInfoStep env s tag = Run.done s1) :
    s1.book.title = if titleDispatch s tag = true then tag.String else s.book.title := by
  unfold booksearcher.getBookInfoStep at h
  cases ht : tag.Typ with
  | StartTagToken =>
    rw [ht] at h
    have hn : titleDispatch s tag = false := by simp [titleDispatch, ht]
    rw [hn]
    dsimp only at h
    split_ifs at h
    all_goals (injection h with h; subst h; rfl)
  | SelfClosingTagToken =>
    rw [ht] at h
    have hn : titleDispatch s tag = false := by simp [titleDispatch, ht]
    rw [hn]
    dsimp only at h
    split at h
    · split at h
      · injection h with h; subst h; rfl
      · injection h with h; subst h
        exact addCover_title env _ _
    · injection h with h; subst h; rfl
  | EndTagToken =>
    rw [ht] at h
    have hn : titleDispatch s tag = false := by simp [titleDispatch, ht]
    rw [hn]
    dsimp only at h
    split_ifs at h
    all_goals (injection h with h; subst h; rfl)
  | TextToken =>
    rw [ht] at h
    dsimp only at h
    by_cases hb : s.binfo = true
    · rw [if_pos hb] at h
      cases hd : booksearcher.dispatchText s tag.String with
      | panic e => rw [hd] at h; simp at h
      | done s2 =>
        rw [hd] at h
        injection h with h; subst h
        have := dispatchText_title s s2 tag.String hd
        simp only [titleDispatch, ht, hb, decide_True, Bool.true_and, Bool.and_eq_true,
          decide_eq_true_eq]
        rw [this]
        by_cases c : s.i = 0 ∧ s.info = true
        · rw [if_pos c, if_pos ⟨c.2, c.1⟩]
        · rw [if_neg c, if_neg (fun c' => c ⟨c'.2, c'.1⟩)]
    · rw [if_neg hb] at h
      injection h with h; subst h
      have hn : titleDispatch s tag = false := by simp [titleDispatch, hb]
      rw [hn]; rfl
  | ErrorToken =>
    rw [ht] at h
    have hn : titleDispatch s tag = false := by simp [titleDispatch, ht]
    rw [hn]
    injection h with h; subst h; rfl
  | CommentToken =>
    rw [ht] at h
    have hn : titleDispatch s tag = false := by simp [titleDispatch, ht]
    rw [hn]
    injection h with h; subst h; rfl
  | DoctypeToken =>
    rw [ht] at h
    have hn : titleDispatch s tag = false := by simp [titleDispatch, ht]
    rw [hn]
    injection h with h; subst h; rfl

theorem getBookInfoLoop_title (env : Env) (fuel : Nat) :
    ∀ (s s' : booksearcher.Scan) (token rest : List Token),
      booksearcher.getBookInfoLoop env fuel s token = some (Run.done (s', rest)) →
      s'.book.title = ((titleTexts env fuel s token).getLast?).getD s.book.title := by
  induction fuel with
  | zero => intro s s' token rest h; simp [booksearcher.getBookInfoLoop] at h
  | succ n ih =>
    intro s s' token rest h
    unfold booksearcher.getBookInfoLoop at h
    unfold titleTexts
    by_cases hc : s.clear = true
    · rw [if_pos hc] at h
      rw [if_pos hc]
      simp only [Option.some.injEq, Run.done.injEq, Prod.mk.injEq] at h
      rw [← h.1]; rfl
    · rw [if_neg hc] at h
      rw [if_neg hc]
      cases hstep : booksearcher.getBookInfoStep env s (Next token).1 with
      | panic e => rw [hstep] at h; simp at h
      | done s1 =>
        rw [hstep] at h
        simp only
        have h1 := getBookInfoStep_title env s s1 _ hstep
        have h2 := ih s1 s' _ rest h
        rw [h2, h1]
        cases hl : (titleTexts env n s1 (Next token).2).getLast? with
        | none =>
          have hnil : titleTexts env n s1 (Next token).2 = [] := List.getLast?_eq_none_iff.1 hl
          rw [hnil]
          by_cases hd : titleDispatch s (Next token).1 = true
          · simp [hd]
          · simp [hd]
        | some x =>
          have hne : titleTexts env n s1 (Next token).2 ≠ [] := by
            intro h0; rw [h0] at hl; simp at hl
          rw [List.getLast?_append_of_ne_nil _ hne, hl]
          rfl

/-- C14 (amended). The title of the record is the last textual value seen in
the title position. An iteration of the loop changes the title only when it
dispatches a text to the title decoder (a text token inside the panel, armed,
at field index 0), and then the title becomes that text, whatever was stored;
every other token leaves the title as it was. So for every token stream:
when the loop reaches the terminal marker, the title is the last of the texts
dispatched to the title decoder during the run (the title the run started with
if there was none), and the title of the record that `getBookInfo` returns is
the last of them (empty if there was none). On the stream
`<div class="bookinfo">`, `<h2>`, text `a`, `<h2>`, text `b`, `<p class="x">`
the dispatched texts are `a` and `b` and the returned title is `b`. -/
theorem getBookInfo_title_last (env : Env) (fuel n : Nat) (s s1 s' : booksearcher.Scan)
    (tag : Token) (token rest : List Token) (book : booksearcher.Book) (e : Option GoError)
    (a b : String) :
    (booksearcher.getBookInfoStep env s tag = Run.done s1 →
      s1.book.title = if titleDispatch s tag = true then tag.String else s.book.title) ∧
    (booksearcher.getBookInfoLoop env fuel s token = some (Run.done (s', rest)) →
      s'.book.title = ((titleTexts env fuel s token).getLast?).getD s.book.title) ∧
    (booksearcher.getBookInfo env fuel token = some (Run.done (book, e)) →
      book.GetTitle = ((titleTexts env fuel {} token).getLast?).getD "") ∧
    titleTexts env (n + 7) {}
        [panelStart, startTag "h2", textToken a, startTag "h2", textToken b, terminalP]
      = [EscapeString a, EscapeString b] ∧
    booksearcher.getBookInfo env (n + 7)
        [panelStart, startTag "h2", textToken a, startTag "h2", textToken b, terminalP]
      = some (Run.done ({ title := EscapeString b }, none)) ∧
    ((book.addTitle a).addTitle b).GetTitle = b := by
  refine ⟨getBookInfoStep_title env s s1 tag, getBookInfoLoop_title env fuel s s' token rest,
    ?_, ?_, ?_, rfl⟩
  · intro h
    unfold booksearcher.getBookInfo at h
    cases hl : booksearcher.getBookInfoLoop env fuel {} token with
    | none => rw [hl] at h; simp at h
    | some x =>
      cases x with
      | panic e1 => rw [hl] at h; simp at h
      | done p =>
        obtain ⟨s2, rest2⟩ := p
        rw [hl] at h
        simp only at h
        cases he : s2.err with
        | some e1 => rw [he] at h; simp at h
        | none =>
          rw [he] at h
          simp only [Option.some.injEq, Run.done.injEq, Prod.mk.injEq] at h
          rw [← h.1]
          exact getBookInfoLoop_title env fuel {} s2 token rest2 hl
  · simp [titleTexts, titleDispatch, booksearcher.getBookInfoStep, booksearcher.dispatchText,
      booksearcher.Book.addTitle, Next, panelStart, terminalP, startTag, textToken, Token.String]
  · simp [booksearcher.getBookInfo, booksearcher.getBookInfoLoop, booksearcher.getBookInfoStep,
      booksearcher.dispatchText, booksearcher.Book.addTitle, Next, panelStart, terminalP,
      startTag, textToken, Token.String]

/-- C14, with the network down, at the stream `<div class="bookinfo">`, `<h2>`,
`A`, `<h2>`, `B`, `<p class="x">`. -/
theorem getBookInfo_title_last_witness :
    booksearcher.getBookInfo offline 7
        [panelStart, startTag "h2", textToken "A", startTag "h2", textToken "B", terminalP]
      = some (Run.done ({ title := "B" }, none)) ∧
    titleTexts offline 7 {}
        [panelStart, startTag "h2", textToken "A", startTag "h2", textToken "B", terminalP]
      = ["A", "B"] ∧
    ({ title := "B" } : booksearcher.Book).GetTitle
      = ((titleTexts offline 7 {}
          [panelStart, startTag "h2", textToken "A", startTag "h2", textToken "B",
           terminalP]).getLast?).getD "" :=
  ⟨by decide, by decide,
   (getBookInfo_title_last offline 7 0 {} {} {} (textToken "A")
      [panelStart, startTag "h2", textToken "A", startTag "h2", textToken "B", terminalP] []
      { title := "B" } none "A" "B").2.2.1 (by decide)⟩

/-! ## Edition and binding -/

/-- C15 (the code at the failing input). `addEdition` stores the trimmed text,
in both packages, also when it is dispatched at field index 4; `addBinding`
stores the text as it is: for the text ` Paperback` (with the space that
follows `</strong>`) dispatched at field index 5, `GetBinding` returns
` Paperback`, which is not the trimmed text `Paperback`. -/
theorem addBinding_keeps_white_space (env : Env) (b : booksearcher.Book) (c : bsearch.Book)
    (s : booksearcher.Scan) (d : String) :
    (b.addEdition d).GetEdition = TrimSpace d ∧
    (c.addEdition d).GetEdition = TrimSpace d ∧
    booksearcher.getBookInfoStep env { s with binfo := true, info := true, i := 4 } (textToken d)
      = Run.done { s with binfo := true, info := false, i := 4,
                          book := { s.book with edition := TrimSpace (EscapeString d) } } ∧
    (b.addBinding d).GetBinding = d ∧
    booksearcher.getBookInfoStep env { s with binfo := true, info := true, i := 5 } (textToken d)
      = Run.done { s with binfo := true, info := false, i := 5,
                          book := { s.book with binding := EscapeString d } } ∧
    booksearcher.getBookInfoStep env { s with binfo := true, info := true, i := 5 }
        (textToken " Paperback")
      = Run.done { s with binfo := true, info := false, i := 5,
                          book := { s.book with binding := " Paperback" } } ∧
    (b.addBinding " Paperback").GetBinding = " Paperback" ∧
    TrimSpace " Paperback" = "Paperback" ∧
    (b.addBinding " Paperback").GetBinding ≠ TrimSpace " Paperback" := by
  have e : EscapeString " Paperback" = " Paperback" := by decide
  refine ⟨rfl, rfl, ?_, rfl, ?_, ?_, rfl, by decide, ?_⟩
  · simp [booksearcher.getBookInfoStep, booksearcher.dispatchText, textToken, Token.String,
      booksearcher.Book.addEdition]
  · simp [booksearcher.getBookInfoStep, booksearcher.dispatchText, textToken, Token.String,
      booksearcher.Book.addBinding]
  · simp [booksearcher.getBookInfoStep, booksearcher.dispatchText, textToken, Token.String,
      booksearcher.Book.addBinding, e]
  · show " Paperback" ≠ TrimSpace " Paperback"
    decide

/-! ## The cover -/

/-- C16 (counterexample). With the network up, on the stream
`<img src="a.jpg"/>`, `<img src="b.png"/>`, panel marker, terminal marker, both
images decode and the returned record holds the second one: the successful
decode of `b.png` replaces the cover set from `a.jpg`. -/
theorem getBookInfo_second_cover_replaces_first :
    booksearcher.getBookInfoStep online {} (imgTag "a.jpg")
      = Run.done { book := { cover := some { pixels := [97, 46, 106, 112, 103] } } } ∧
    booksearcher.getBookInfo online 5 [imgTag "a.jpg", imgTag "b.png", panelStart, terminalP]
      = some (Run.done ({ cover := some { pixels := [98, 46, 112, 110, 103] } }, none)) ∧
    (some { pixels := [98, 46, 112, 110, 103] } : Option Image)
      ≠ some { pixels := [97, 46, 106, 112, 103] } := by
  refine ⟨by decide, by decide, by decide⟩

/-- C16 (amended). For the cover the last successful decode wins. A call of
`addCover` whose fetch answers `200 OK` and whose decoder (JPEG for a `.jpg`
suffix, else PNG for a `.png` suffix) returns an image sets the cover to that
image, whatever cover was stored before, changes no other field and returns no
error; a call that returns an error leaves the whole record, with its cover,
unchanged. An iteration on a self-closing `<img>` with a `src` attribute makes
this call on the first `src` value and stores its results. -/
theorem addCover_last_success_wins (env : Env) (b : booksearcher.Book) (url : String)
    (s : booksearcher.Scan) (tag : Token) (src : Attribute) :
    (∀ r img, env.Get url = .ok r → r.StatusCode = StatusOK → HasSuffix url ".jpg" = true →
      env.jpegDecode r.Body = .ok img →
      b.addCover env url = ({ b with cover := some img }, none)) ∧
    (∀ r img, env.Get url = .ok r → r.StatusCode = StatusOK → HasSuffix url ".jpg" = false →
      HasSuffix url ".png" = true → env.pngDecode r.Body = .ok img →
      b.addCover env url = ({ b with cover := some img }, none)) ∧
    (∀ e, (b.addCover env url).2 = some e → b.addCover env url = (b, some e)) ∧
    (tag.Typ = TokenType.SelfClosingTagToken → tag.Data = "img" →
      tag.Attr.find? (fun a => a.Key = "src") = some src →
      booksearcher.getBookInfoStep env s tag
        = Run.done { s with book := (s.book.addCover env src.Val).1,
                            err := (s.book.addCover env src.Val).2 }) := by
  refine ⟨?_, ?_, addCover_error env b url, ?_⟩
  · intro r img hg hs hj hdec
    simp [booksearcher.Book.addCover, hg, hs, hj, hdec, Except.map]
  · intro r img hg hs hj hp hdec
    simp [booksearcher.Book.addCover, hg, hs, hj, hp, hdec, Except.map]
  · intro ht hd hsrc
    unfold booksearcher.getBookInfoStep
    rw [ht]
    simp only [hd, if_true, hsrc]

/-- C16, with the network up, at a record that holds a cover and the image
`b.png`; with the network down, at the image `b.png`. -/
theorem addCover_last_success_wins_witness :
    online.Get "b.png"
      = .ok { StatusCode := 200, Status := "200 OK", Body := [98, 46, 112, 110, 103] } ∧
    HasSuffix "b.png" ".jpg" = false ∧ HasSuffix "b.png" ".png" = true ∧
    ({ cover := some { pixels := [1] } } : booksearcher.Book).addCover online "b.png"
      = ({ cover := some { pixels := [98, 46, 112, 110, 103] } }, none) ∧
    ({ cover := some { pixels := [1] } } : booksearcher.Book).addCover offline "b.png"
      = ({ cover := some { pixels := [1] } }, some (GoError.transport "offline")) ∧
    booksearcher.getBookInfoStep online { book := { cover := some { pixels := [1] } } }
        (imgTag "b.png")
      = Run.done { book := (({ cover := some { pixels := [1] } } : booksearcher.Book).addCover
                     online "b.png").1,
                   err := (({ cover := some { pixels := [1] } } : booksearcher.Book).addCover
                     online "b.png").2 } :=
  ⟨rfl, by decide, by decide,
   (addCover_last_success_wins online { cover := some { pixels := [1] } } "b.png" {}
      (imgTag "b.png") { Key := "src", Val := "b.png" }).2.1
      { StatusCode := 200, Status := "200 OK", Body := [98, 46, 112, 110, 103] }
      { pixels := [98, 46, 112, 110, 103] } rfl rfl (by decide) (by decide) rfl,
   (addCover_last_success_wins offline { cover := some { pixels := [1] } } "b.png" {}
      (imgTag "b.png") { Key := "src", Val := "b.png" }).2.2.1
      (GoError.transport "offline") (by decide),
   (addCover_last_success_wins online { cover := some { pixels := [1] } } "b.png"
      { book := { cover := some { pixels := [1] } } }
      (imgTag "b.png") { Key := "src", Val := "b.png" }).2.2.2 rfl rfl rfl⟩

/-! ## Vendor arms of the price table -/

theorem getPricesStep_text (s : bsearch.Prices) (tag : Token) (v : ℚ)
    (ht : tag.Typ = TokenType.TextToken)
    (hne : TrimSpace (TrimPrefix tag.String "$") ≠ "")
    (hv : ParseFloat (TrimSpace (TrimPrefix tag.String "$")) = some v) :
    bsearch.getPricesStep s tag
      = if s.amazon then
          Run.done { s with amazon := false,
                            b.Comm.Amazon := bsearch.writeQuote s.b.Comm.Amazon s.index v }
        else if s.barnes then
          Run.done { s with barnes := false,
                            b.Comm.Barnes := bsearch.writeQuote s.b.Comm.Barnes s.index v }
        else if s.brenter then
          Run.done { s with brenter := false,
                            b.Comm.BookRenter := bsearch.writeQuote s.b.Comm.BookRenter s.index v }
        else if s.chegg then
          Run.done { s with chegg := false,
                            b.Comm.Chegg := bsearch.writeQuote s.b.Comm.Chegg s.index v }
        else Run.done s := by
  unfold bsearch.getPricesStep
  rw [ht]
  simp only [hne, if_false, hv]

theorem ParseFloat_7_00 : ParseFloat "7.00" = some 7 := by
  have h : readFloat "7.00" = some (false, 700, -2) := by decide
  simp only [ParseFloat, h, decimalValue, float32Overflow]
  norm_num

theorem cell_7_00 : TrimSpace (TrimPrefix (EscapeString "$7.00") "$") = "7.00" := by decide

theorem getPrices_two_vendors_run (n : Nat) :
    bsearch.getPrices (n + 6)
        [altImg "Amazon", altImg "Chegg", startTag "th", textToken "$7.00", footerDiv] {}
      = some (Run.done ({ Comm := { Amazon := { New := 7 } } }, none)) := by
  have c1 : Contains "Amazon" "Amazon" = true := by decide
  have c2 : Contains "Chegg" "Amazon" = false := by decide
  have c3 : Contains "Chegg" "Book Renter" = false := by decide
  have c4 : Contains "Chegg" "Chegg" = true := by decide
  simp [bsearch.getPrices, bsearch.getPricesLoop, bsearch.getPricesStep, Next, altImg,
    footerDiv, startTag, textToken, Token.String, bsearch.armVendor, bsearch.writeQuote,
    c1, c2, c3, c4, cell_7_00, ParseFloat_7_00]

/-- C17 (counterexample). On the stream `<img alt="Amazon"/>`, `<img alt="Chegg"/>`,
`<th>`, text `$7.00`, `<div id="footer">`, started on a fresh book, `getPrices`
writes 7 to `Amazon.New` and leaves `Chegg.New` at 0: the text goes to the
vendor armed first, not to the vendor of the last image. -/
theorem getPrices_text_goes_to_amazon_not_chegg :
    bsearch.getPrices 6
        [altImg "Amazon", altImg "Chegg", startTag "th", textToken "$7.00", footerDiv] {}
      = some (Run.done ({ Comm := { Amazon := { New := 7 } } }, none)) ∧
    ({ Comm := { Amazon := { New := 7 } } } : bsearch.Book).Comm.Chegg.New = 0 ∧
    ({ Comm := { Amazon := { New := 7 } } } : bsearch.Book).Comm.Chegg.New ≠ 7 := by
  refine ⟨getPrices_two_vendors_run 0, rfl, ?_⟩
  show (0 : ℚ) ≠ 7
  norm_num

/-- C17 (amended). In `getPrices` a self-closing `<img>` whose `alt` attribute
contains `Amazon`, else `Book Renter`, else `Chegg`, else `Barnes` sets the
flag of that vendor and clears no flag, so vendors armed earlier stay armed.
The next non-blank, parseable text is written to the row of the first armed
vendor in the order Amazon, Barnes, BookRenter, Chegg, and clears only that
arm: it goes to the vendor of the last image when no vendor earlier in that
order is armed. In the example `<img alt="Amazon"/>`, `<img alt="Chegg"/>`,
`<th>`, `$7.00` it is written to `Amazon.New`. -/
theorem getPrices_vendor_priority (n : Nat) (s : bsearch.Prices) (alt : String) (tag : Token)
    (v : ℚ) (ht : tag.Typ = TokenType.TextToken)
    (hne : TrimSpace (TrimPrefix tag.String "$") ≠ "")
    (hv : ParseFloat (TrimSpace (TrimPrefix tag.String "$")) = some v) :
    bsearch.getPricesStep s (altImg alt) = Run.done (bsearch.armVendor s alt) ∧
    ((bsearch.armVendor s alt).amazon = (s.amazon || Contains alt "Amazon") ∧
     (bsearch.armVendor s alt).brenter
       = (s.brenter || (!Contains alt "Amazon" && Contains alt "Book Renter")) ∧
     (bsearch.armVendor s alt).chegg
       = (s.chegg || (!Contains alt "Amazon" && !Contains alt "Book Renter"
           && Contains alt "Chegg")) ∧
     (bsearch.armVendor s alt).barnes
       = (s.barnes || (!Contains alt "Amazon" && !Contains alt "Book Renter"
           && !Contains alt "Chegg" && Contains alt "Barnes")) ∧
     (bsearch.armVendor s alt).b = s.b ∧ (bsearch.armVendor s alt).index = s.index ∧
     (bsearch.armVendor s alt).fin = s.fin) ∧
    bsearch.getPricesStep s tag
      = (if s.amazon then
          Run.done { s with amazon := false,
                            b.Comm.Amazon := bsearch.writeQuote s.b.Comm.Amazon s.index v }
        else if s.barnes then
          Run.done { s with barnes := false,
                            b.Comm.Barnes := bsearch.writeQuote s.b.Comm.Barnes s.index v }
        else if s.brenter then
          Run.done { s with brenter := false,
                            b.Comm.BookRenter := bsearch.writeQuote s.b.Comm.BookRenter s.index v }
        else if s.chegg then
          Run.done { s with chegg := false,
                            b.Comm.Chegg := bsearch.writeQuote s.b.Comm.Chegg s.index v }
        else Run.done s) ∧
    bsearch.getPrices (n + 6)
        [altImg "Amazon", altImg "Chegg", startTag "th", textToken "$7.00", footerDiv] {}
      = some (Run.done ({ Comm := { Amazon := { New := 7 } } }, none)) := by
  refine ⟨?_, ?_, getPricesStep_text s tag v ht hne hv, getPrices_two_vendors_run n⟩
  · simp [bsearch.getPricesStep, altImg]
  · unfold bsearch.armVendor
    cases Contains alt "Amazon" <;> cases Contains alt "Book Renter" <;>
      cases Contains alt "Chegg" <;> cases Contains alt "Barnes" <;> simp

/-- C17, at the text `$7.00` in the state with Amazon and Chegg armed at column
1, and in the state with only Chegg armed. -/
theorem getPrices_vendor_priority_witness :
    (textToken "$7.00").Typ = TokenType.TextToken ∧
    TrimSpace (TrimPrefix (textToken "$7.00").String "$") ≠ "" ∧
    ParseFloat (TrimSpace (TrimPrefix (textToken "$7.00").String "$")) = some 7 ∧
    bsearch.getPricesStep { amazon := true, chegg := true, index := 1 } (textToken "$7.00")
      = Run.done { chegg := true, index := 1, b := { Comm := { Amazon := { New := 7 } } } } ∧
    bsearch.getPricesStep { chegg := true, index := 1 } (textToken "$7.00")
      = Run.done { index := 1, b := { Comm := { Chegg := { New := 7 } } } } :=
  ⟨rfl, by rw [show (textToken "$7.00").String = EscapeString "$7.00" from rfl, cell_7_00]; decide,
   by rw [show (textToken "$7.00").String = EscapeString "$7.00" from rfl, cell_7_00];
      exact ParseFloat_7_00,
   by
    rw [(getPrices_vendor_priority 0 { amazon := true, chegg := true, index := 1 } ""
      (textToken "$7.00") 7 rfl
      (by rw [show (textToken "$7.00").String = EscapeString "$7.00" from rfl, cell_7_00]; decide)
      (by rw [show (textToken "$7.00").String = EscapeString "$7.00" from rfl, cell_7_00];
          exact ParseFloat_7_00)).2.2.1]
    simp [bsearch.writeQuote],
   by
    rw [(getPrices_vendor_priority 0 { chegg := true, index := 1 } ""
      (textToken "$7.00") 7 rfl
      (by rw [show (textToken "$7.00").String = EscapeString "$7.00" from rfl, cell_7_00]; decide)
      (by rw [show (textToken "$7.00").String = EscapeString "$7.00" from rfl, cell_7_00];
          exact ParseFloat_7_00)).2.2.1]
    simp [bsearch.writeQuote]⟩

/-! ## Columns of the price table -/

/-- C18. In `getPrices` a `<th>` start tag adds exactly 1 to the column index
and changes nothing else. A non-blank, parseable text with price `v`, consumed
for the armed vendor (Amazon; Barnes, BookRenter or Chegg when the vendors
tested before it are not armed), replaces that vendor's row by the row with `v`
written at the column index and clears that vendor's arm, leaving every other
row, every other field of the book, the other flags and the column index
unchanged; writing at column 1 sets `New`, at 2 `Used`, at 3 `Rent`, each
leaving the two other cells of the row, and at column 0 or above 3 nothing. -/
theorem getPrices_columns (s : bsearch.Prices) (attrs : List Attribute) (tag : Token)
    (v : ℚ) (q : bsearch.Quote) (k : Nat) (ht : tag.Typ = TokenType.TextToken)
    (hne : TrimSpace (TrimPrefix tag.String "$") ≠ "")
    (hv : ParseFloat (TrimSpace (TrimPrefix tag.String "$")) = some v) :
    bsearch.getPricesStep s { Typ := TokenType.StartTagToken, Data := "th", Attr := attrs }
      = Run.done { s with index := s.index + 1 } ∧
    bsearch.getPricesStep { s with amazon := true } tag
      = Run.done { s with amazon := false,
                          b.Comm.Amazon := bsearch.writeQuote s.b.Comm.Amazon s.index v } ∧
    bsearch.getPricesStep { s with amazon := false, barnes := true } tag
      = Run.done { s with amazon := false, barnes := false,
                          b.Comm.Barnes := bsearch.writeQuote s.b.Comm.Barnes s.index v } ∧
    bsearch.getPricesStep { s with amazon := false, barnes := false, brenter := true } tag
      = Run.done { s with amazon := false, barnes := false, brenter := false,
                          b.Comm.BookRenter := bsearch.writeQuote s.b.Comm.BookRenter s.index v } ∧
    bsearch.getPricesStep
        { s with amazon := false, barnes := false, brenter := false, chegg := true } tag
      = Run.done { s with amazon := false, barnes := false, brenter := false, chegg := false,
                          b.Comm.Chegg := bsearch.writeQuote s.b.Comm.Chegg s.index v } ∧
    bsearch.writeQuote q 1 v = { q with New := v } ∧
    bsearch.writeQuote q 2 v = { q with Used := v } ∧
    bsearch.writeQuote q 3 v = { q with Rent := v } ∧
    bsearch.writeQuote q 0 v = q ∧
    bsearch.writeQuote q (k + 4) v = q := by
  refine ⟨?_, ?_, ?_, ?_, ?_, ?_, ?_, ?_, ?_, ?_⟩
  · simp [bsearch.getPricesStep]
  · rw [getPricesStep_text _ tag v ht hne hv]; simp
  · rw [getPricesStep_text _ tag v ht hne hv]; simp
  · rw [getPricesStep_text _ tag v ht hne hv]; simp
  · rw [getPricesStep_text _ tag v ht hne hv]; simp
  all_goals simp [bsearch.writeQuote]

/-- C18, at the text `$7.00` with BookRenter armed at column 2 and a book that
already has prices. -/
theorem getPrices_columns_witness :
    (textToken "$7.00").Typ = TokenType.TextToken ∧
    TrimSpace (TrimPrefix (textToken "$7.00").String "$") ≠ "" ∧
    ParseFloat (TrimSpace (TrimPrefix (textToken "$7.00").String "$")) = some 7 ∧
    bsearch.getPricesStep
        { brenter := true, index := 2,
          b := { title := "T", Comm := { Amazon := { New := 3 }, BookRenter := { Rent := 1 } } } }
        (textToken "$7.00")
      = Run.done
        { brenter := false, index := 2,
          b := { title := "T",
                 Comm := { Amazon := { New := 3 }, BookRenter := { Used := 7, Rent := 1 } } } } :=
  ⟨rfl, by rw [show (textToken "$7.00").String = EscapeString "$7.00" from rfl, cell_7_00]; decide,
   by rw [show (textToken "$7.00").String = EscapeString "$7.00" from rfl, cell_7_00];
      exact ParseFloat_7_00,
   by
    have h := (getPrices_columns
      { index := 2,
        b := { title := "T", Comm := { Amazon := { New := 3 }, BookRenter := { Rent := 1 } } } }
      [] (textToken "$7.00") 7 {} 0 rfl
      (by rw [show (textToken "$7.00").String = EscapeString "$7.00" from rfl, cell_7_00]; decide)
      (by rw [show (textToken "$7.00").String = EscapeString "$7.00" from rfl, cell_7_00];
          exact ParseFloat_7_00)).2.2.2.1
    simpa [bsearch.writeQuote] using h⟩

/-! ## Arming rules of the info region -/

/-- C19. In `getBookInfo` of both packages, inside the info panel: an `<h2>`
start tag sets the armed flag; an `<a>` start tag sets it when the field index
is below 3 and changes nothing otherwise; a `</strong>` end tag sets it when
the field index is above 2 and changes nothing otherwise; in each case the
field index, the record, the pending error, `clear` and the panel flag stay.
Outside the panel none of the three tokens changes anything. (`k` is an index
below 3, `m` an index above 2.) -/
theorem getBookInfoStep_arming (env : Env) (s : booksearcher.Scan) (t : bsearch.Scan)
    (attrs : List Attribute) (k m : Nat) (hk : k < 3) (hm : 2 < m) :
    (booksearcher.getBookInfoStep env { s with binfo := true }
        { Typ := TokenType.StartTagToken, Data := "h2", Attr := attrs }
      = Run.done { s with binfo := true, info := true } ∧
     booksearcher.getBookInfoStep env { s with binfo := true, i := k }
        { Typ := TokenType.StartTagToken, Data := "a", Attr := attrs }
      = Run.done { s with binfo := true, i := k, info := true } ∧
     booksearcher.getBookInfoStep env { s with binfo := true, i := m }
        { Typ := TokenType.StartTagToken, Data := "a", Attr := attrs }
      = Run.done { s with binfo := true, i := m } ∧
     booksearcher.getBookInfoStep env { s with binfo := true, i := m }
        { Typ := TokenType.EndTagToken, Data := "strong", Attr := attrs }
      = Run.done { s with binfo := true, i := m, info := true } ∧
     booksearcher.getBookInfoStep env { s with binfo := true, i := k }
        { Typ := TokenType.EndTagToken, Data := "strong", Attr := attrs }
      = Run.done { s with binfo := true, i := k } ∧
     booksearcher.getBookInfoStep env { s with binfo := false }
        { Typ := TokenType.StartTagToken, Data := "h2", Attr := attrs }
      = Run.done { s with binfo := false } ∧
     booksearcher.getBookInfoStep env { s with binfo := false }
        { Typ := TokenType.StartTagToken, Data := "a", Attr := attrs }
      = Run.done { s with binfo := false } ∧
     booksearcher.getBookInfoStep env { s with binfo := false }
        { Typ := TokenType.EndTagToken, Data := "strong", Attr := attrs }
      = Run.done { s with binfo := false }) ∧
    (bsearch.getBookInfoStep env { t with binfo := true }
        { Typ := TokenType.StartTagToken, Data := "h2", Attr := attrs }
      = { t with binfo := true, info := true } ∧
     bsearch.getBookInfoStep env { t with binfo := true, i := k }
        { Typ := TokenType.StartTagToken, Data := "a", Attr := attrs }
      = { t with binfo := true, i := k, info := true } ∧
     bsearch.getBookInfoStep env { t with binfo := true, i := m }
        { Typ := TokenType.StartTagToken, Data := "a", Attr := attrs }
      = { t with binfo := true, i := m } ∧
     bsearch.getBookInfoStep env { t with binfo := true, i := m }
        { Typ := TokenType.EndTagToken, Data := "strong", Attr := attrs }
      = { t with binfo := true, i := m, info := true } ∧
     bsearch.getBookInfoStep env { t with binfo := true, i := k }
        { Typ := TokenType.EndTagToken, Data := "strong", Attr := attrs }
      = { t with binfo := true, i := k } ∧
     bsearch.getBookInfoStep env { t with binfo := false }
        { Typ := TokenType.StartTagToken, Data := "h2", Attr := attrs }
      = { t with binfo := false } ∧
     bsearch.getBookInfoStep env { t with binfo := false }
        { Typ := TokenType.StartTagToken, Data := "a", Attr := attrs }
      = { t with binfo := false } ∧
     bsearch.getBookInfoStep env { t with binfo := false }
        { Typ := TokenType.EndTagToken, Data := "strong", Attr := attrs }
      = { t with binfo := false }) := by
  have hk' : ¬ 2 < k := by omega
  have hm' : ¬ m < 3 := by omega
  refine ⟨⟨?_, ?_, ?_, ?_, ?_, ?_, ?_, ?_⟩, ⟨?_, ?_, ?_, ?_, ?_, ?_, ?_, ?_⟩⟩ <;>
    simp [booksearcher.getBookInfoStep, bsearch.getBookInfoStep, hk, hm, hk', hm']

/-- C19, at the field indices 2 and 3, with a pending title. -/
theorem getBookInfoStep_arming_witness :
    (2 : Nat) < 3 ∧ (2 : Nat) < 3 ∧
    booksearcher.getBookInfoStep offline { binfo := true, i := 2, book := { title := "T" } }
        (startTag "a")
      = Run.done { binfo := true, i := 2, info := true, book := { title := "T" } } ∧
    booksearcher.getBookInfoStep offline { binfo := true, i := 3, book := { title := "T" } }
        (startTag "a")
      = Run.done { binfo := true, i := 3, book := { title := "T" } } ∧
    bsearch.getBookInfoStep offline { binfo := true, i := 3 } (endTag "strong")
      = { binfo := true, i := 3, info := true } :=
  ⟨by decide, by decide,
   (getBookInfoStep_arming offline { book := { title := "T" } } {} [] 2 3
      (by decide) (by decide)).1.2.1,
   (getBookInfoStep_arming offline { book := { title := "T" } } {} [] 2 3
      (by decide) (by decide)).1.2.2.1,
   (getBookInfoStep_arming offline { book := { title := "T" } } {} [] 2 3
      (by decide) (by decide)).2.2.2.2.1⟩

/-! ## The two variants of the info-region loop -/

theorem addCover_agree (env : Env) (b : booksearcher.Book) (c : bsearch.Book) (url : String)
    (h : sameFields b c) :
    (b.addCover env url).2 = (c.addCover env url).2 ∧
      sameFields (b.addCover env url).1 (c.addCover env url).1 := by
  unfold booksearcher.Book.addCover bsearch.Book.addCover
  obtain ⟨h1, h2, h3, h4, h5, h6, h7⟩ := h
  cases env.Get url with
  | error err => exact ⟨rfl, h1, h2, h3, h4, h5, h6, h7⟩
  | ok response =>
    simp only
    by_cases hs : response.StatusCode ≠ StatusOK
    · rw [if_pos hs, if_pos hs]; exact ⟨rfl, h1, h2, h3, h4, h5, h6, h7⟩
    · rw [if_neg hs, if_neg hs]
      by_cases hj : HasSuffix url ".jpg" = true
      · simp only [hj, if_true]
        cases env.jpegDecode response.Body with
        | error err => exact ⟨rfl, h1, h2, h3, h4, h5, h6, h7⟩
        | ok img => exact ⟨rfl, h1, h2, h3, h4, h5, rfl, h7⟩
      · by_cases hp : HasSuffix url ".png" = true
        · simp only [hj, hp, if_true]
          cases env.pngDecode response.Body with
          | error err => exact ⟨rfl, h1, h2, h3, h4, h5, h6, h7⟩
          | ok img => exact ⟨rfl, h1, h2, h3, h4, h5, rfl, h7⟩
        · simp only [hj, hp]
          exact ⟨rfl, h1, h2, h3, h4, h5, rfl, h7⟩

theorem addISBN_agree (b : booksearcher.Book) (c : bsearch.Book) (x : String)
    (h : sameFields b c) : sameFields (b.addISBN x) (c.addISBN x) := by
  obtain ⟨h1, h2, h3, h4, h5, h6, h7⟩ := h
  unfold booksearcher.Book.addISBN bsearch.Book.addISBN
  split_ifs
  · exact ⟨by simp [h1], h2, h3, h4, h5, h6, h7⟩
  · exact ⟨by simp [h1], h2, h3, h4, h5, h6, h7⟩
  · exact ⟨h1, h2, h3, h4, h5, h6, h7⟩

theorem addPrice_agree (b : booksearcher.Book) (c : bsearch.Book) (x : String)
    (h : sameFields b c) :
    (b.addPrice x).2 = (c.addPrice x).2 ∧ sameFields (b.addPrice x).1 (c.addPrice x).1 := by
  obtain ⟨h1, h2, h3, h4, h5, h6, h7⟩ := h
  unfold booksearcher.Book.addPrice bsearch.Book.addPrice
  dsimp only
  cases ParseFloat (TrimSpace (Replace x '$' "" 1)) with
  | none => exact ⟨rfl, h1, h2, h3, h4, h5, h6, h7⟩
  | some v => exact ⟨rfl, h1, h2, h3, h4, h5, h6, rfl⟩

theorem addAuthors_agree (b : booksearcher.Book) (c : bsearch.Book) (l : List String)
    (h : sameFields b c) : sameFields (b.addAuthors l) (c.addAuthors l) := by
  obtain ⟨h1, h2, h3, h4, h5, h6, h7⟩ := h
  rw [addAuthors_eq, addAuthors_eq_bs]
  exact ⟨h1, h2, by simp only [h3], h4, h5, h6, h7⟩

theorem addPublishers_agree (b : booksearcher.Book) (c : bsearch.Book) (l : List String)
    (h : sameFields b c) : sameFields (b.addPublishers l) (c.addPublishers l) := by
  obtain ⟨h1, h2, h3, h4, h5, h6, h7⟩ := h
  rw [addPublishers_eq, addPublishers_eq_bs]
  exact ⟨h1, h2, h3, by simp only [h4], h5, h6, h7⟩

theorem dispatchText_agree (s s1 : booksearcher.Scan) (t : bsearch.Scan) (text : String)
    (h : agree s t) (hd : booksearcher.dispatchText s text = Run.done s1) :
    agree s1 (bsearch.dispatchText t text) := by
  obtain ⟨hc, hb, hi, hidx, he, hf⟩ := h
  have hf' := hf
  obtain ⟨h1, h2, h3, h4, h5, h6, h7⟩ := hf
  unfold booksearcher.dispatchText at hd
  unfold bsearch.dispatchText
  rw [← hidx, ← hi]
  by_cases c0 : s.i = 0 ∧ s.info = true
  · rw [if_pos c0] at hd
    rw [if_pos c0]
    injection hd with hd; subst hd
    exact ⟨hc, hb, rfl, rfl, he, h1, rfl, h3, h4, h5, h6, h7⟩
  rw [if_neg c0] at hd
  rw [if_neg c0]
  by_cases c1 : s.i = 1 ∧ s.info = true
  · rw [if_pos c1] at hd
    rw [if_pos c1]
    injection hd with hd; subst hd
    exact ⟨hc, hb, rfl, rfl, he, addISBN_agree _ _ _ hf'⟩
  rw [if_neg c1] at hd
  rw [if_neg c1]
  by_cases c2 : s.i = 2 ∧ s.info = true
  · rw [if_pos c2] at hd
    rw [if_pos c2]
    injection hd with hd; subst hd
    exact ⟨hc, hb, rfl, rfl, he, addISBN_agree _ _ _ hf'⟩
  rw [if_neg c2] at hd
  rw [if_neg c2]
  by_cases c3 : s.i = 3 ∧ s.info = true
  · rw [if_pos c3] at hd
    rw [if_pos c3]
    injection hd with hd; subst hd
    exact ⟨hc, hb, rfl, rfl, he, addAuthors_agree _ _ _ hf'⟩
  rw [if_neg c3] at hd
  rw [if_neg c3]
  by_cases c4 : s.i = 4 ∧ s.info = true
  · rw [if_pos c4] at hd
    rw [if_pos c4]
    injection hd with hd; subst hd
    exact ⟨hc, hb, rfl, rfl, he, h1, h2, h3, h4, rfl, h6, h7⟩
  rw [if_neg c4] at hd
  rw [if_neg c4]
  by_cases c5 : s.i = 5 ∧ s.info = true
  · rw [if_pos c5] at hd
    rw [if_neg (fun c => by have := c.1; have := c5.1; omega),
      if_neg (fun c => by have := c.1; have := c5.1; omega)]
    injection hd with hd; subst hd
    exact ⟨hc, hb, hi, hidx, he, h1, h2, h3, h4, h5, h6, h7⟩
  rw [if_neg c5] at hd
  by_cases c6 : s.i = 6 ∧ s.info = true
  · rw [if_pos c6] at hd
    rw [if_pos c6]
    injection hd with hd; subst hd
    exact ⟨hc, hb, rfl, rfl, he, addPublishers_agree _ _ _ hf'⟩
  rw [if_neg c6] at hd
  rw [if_neg c6]
  by_cases c7 : s.i = 7 ∧ s.info = true
  · rw [if_pos c7] at hd
    rw [if_neg (fun c => by have := c.1; have := c7.1; omega)]
    simp only [booksearcher.Book.addPublishedDate] at hd
    cases hp : timeParseMonthYear (TrimSpace text) with
    | none => rw [hp] at hd; simp at hd
    | some f =>
      rw [hp] at hd
      simp only at hd
      injection hd with hd; subst hd
      exact ⟨hc, hb, hi, hidx, he, h1, h2, h3, h4, h5, h6, h7⟩
  rw [if_neg c7] at hd
  by_cases c8 : s.i = 8 ∧ s.info = true
  · rw [if_pos c8] at hd
    rw [if_pos c8]
    injection hd with hd; subst hd
    exact ⟨hc, hb, rfl, rfl, (addPrice_agree _ _ _ hf').1, (addPrice_agree _ _ _ hf').2⟩
  rw [if_neg c8] at hd
  rw [if_neg c8]
  injection hd with hd; subst hd
  exact ⟨hc, hb, hi, hidx, he, h1, h2, h3, h4, h5, h6, h7⟩

theorem getBookInfoStep_agree (env : Env) (s s1 : booksearcher.Scan) (t : bsearch.Scan)
    (tag : Token) (h : agree s t) (hd : booksearcher.getBookInfoStep env s tag = Run.done s1) :
    agree s1 (bsearch.getBookInfoStep env t tag) := by
  have h' := h
  obtain ⟨hc, hb, hi, hidx, he, hf⟩ := h
  unfold booksearcher.getBookInfoStep at hd
  unfold bsearch.getBookInfoStep
  cases ht : tag.Typ with
  | StartTagToken =>
    rw [ht] at hd
    rw [← hb, ← hidx, ← hc]
    dsimp only at hd ⊢
    split_ifs at hd ⊢
    all_goals
      injection hd with hd; subst hd
      refine ⟨?_, ?_, ?_, ?_, ?_, ?_⟩ <;> first | rfl | assumption
  | SelfClosingTagToken =>
    rw [ht] at hd
    dsimp only at hd ⊢
    by_cases himg : tag.Data = "img"
    · rw [if_pos himg] at hd
      rw [if_pos himg]
      cases hfind : tag.Attr.find? (fun cov => decide (cov.Key = "src")) with
      | none =>
        rw [hfind] at hd
        injection hd with hd; subst hd
        exact h'
      | some cov =>
        rw [hfind] at hd
        injection hd with hd; subst hd
        exact ⟨hc, hb, hi, hidx, (addCover_agree env _ _ _ hf).1, (addCover_agree env _ _ _ hf).2⟩
    · rw [if_neg himg] at hd
      rw [if_neg himg]
      injection hd with hd; subst hd
      exact h'
  | EndTagToken =>
    rw [ht] at hd
    rw [← hb, ← hidx]
    dsimp only at hd ⊢
    split_ifs at hd ⊢
    all_goals
      injection hd with hd; subst hd
      refine ⟨?_, ?_, ?_, ?_, ?_, ?_⟩ <;> first | rfl | assumption
  | TextToken =>
    rw [ht] at hd
    rw [← hb]
    dsimp only at hd ⊢
    by_cases hbi : s.binfo = true
    · rw [if_pos hbi] at hd
      rw [if_pos hbi]
      cases hdt : booksearcher.dispatchText s tag.String with
      | panic e => rw [hdt] at hd; simp at hd
      | done s2 =>
        rw [hdt] at hd
        injection hd with hd; subst hd
        obtain ⟨a1, a2, a3, a4, a5, a6⟩ := dispatchText_agree s s2 t tag.String h' hdt
        exact ⟨a1, a2, rfl, a4, a5, a6⟩
    · rw [if_neg hbi] at hd
      rw [if_neg hbi]
      injection hd with hd; subst hd
      exact h'
  | ErrorToken =>
    rw [ht] at hd
    injection hd with hd; subst hd
    exact h'
  | CommentToken =>
    rw [ht] at hd
    injection hd with hd; subst hd
    exact h'
  | DoctypeToken =>
    rw [ht] at hd
    injection hd with hd; subst hd
    exact h'

theorem getBookInfoLoop_agree (env : Env) (fuel : Nat) :
    ∀ (s s' : booksearcher.Scan) (t : bsearch.Scan) (token rest : List Token), agree s t →
      booksearcher.getBookInfoLoop env fuel s token = some (Run.done (s', rest)) →
      ∃ t', bsearch.getBookInfoLoop env fuel t token = some (t', rest) ∧ agree s' t' := by
  induction fuel with
  | zero => intro s s' t token rest _ h; simp [booksearcher.getBookInfoLoop] at h
  | succ n ih =>
    intro s s' t token rest ha h
    unfold booksearcher.getBookInfoLoop at h
    unfold bsearch.getBookInfoLoop
    rw [← ha.1]
    by_cases hc : s.clear = true
    · rw [if_pos hc] at h
      rw [if_pos hc]
      simp only [Option.some.injEq, Run.done.injEq, Prod.mk.injEq] at h
      exact ⟨t, by rw [h.2], by rw [← h.1]; exact ha⟩
    · rw [if_neg hc] at h
      rw [if_neg hc]
      cases hstep : booksearcher.getBookInfoStep env s (Next token).1 with
      | panic e => rw [hstep] at h; simp at h
      | done s1 =>
        rw [hstep] at h
        exact ih s1 s' _ _ rest (getBookInfoStep_agree env s s1 t _ ha hstep) h

theorem getBookInfoLoop_clear (env : Env) (fuel : Nat) :
    ∀ (s s' : booksearcher.Scan) (token rest : List Token),
      booksearcher.getBookInfoLoop env fuel s token = some (Run.done (s', rest)) →
      s'.clear = true := by
  induction fuel with
  | zero => intro s s' token rest h; simp [booksearcher.getBookInfoLoop] at h
  | succ n ih =>
    intro s s' token rest h
    unfold booksearcher.getBookInfoLoop at h
    by_cases hc : s.clear = true
    · rw [if_pos hc] at h
      simp only [Option.some.injEq, Run.done.injEq, Prod.mk.injEq] at h
      rw [← h.1]; exact hc
    · rw [if_neg hc] at h
      cases hstep : booksearcher.getBookInfoStep env s (Next token).1 with
      | panic e => rw [hstep] at h; simp at h
      | done s1 =>
        rw [hstep] at h
        exact ih s1 s' _ rest h

/-- C20. The info-region loops of the two packages agree on the shared fields.
Whenever the loop of `booksearcher.getBookInfo`, started as `getBookInfo`
starts it, reaches the terminal marker without panicking, the loop of
`bsearch.getBookInfo` on the same stream, with the same collaborators and the
same fuel, reaches it too with the same tokens left over (so the same number
consumed), and ends with the same title, identifier slots, authors, edition,
publishers, cover and list price, the same pending error and the same field
index. The variants differ in that `bsearch` changes no record field for an
armed text at field index 5 (binding) or 7 (publication date): it only clears
the armed flag. -/
theorem getBookInfoLoop_variants_agree (env : Env) (now fuel : Nat) (token rest : List Token)
    (s' : booksearcher.Scan) (t : bsearch.Scan) (d : String)
    (h : booksearcher.getBookInfoLoop env fuel {} token = some (Run.done (s', rest))) :
    (∃ t', bsearch.getBookInfoLoop env fuel
          { book := { Expiration := now + bsearch.validity } } token = some (t', rest) ∧
        t'.book.GetTitle = s'.book.GetTitle ∧ t'.book.isbn = s'.book.GetISBNs ∧
        t'.book.GetAuthors = s'.book.GetAuthors ∧ t'.book.GetEdition = s'.book.GetEdition ∧
        t'.book.GetPublishers = s'.book.GetPublishers ∧ t'.book.GetCover = s'.book.GetCover ∧
        t'.book.GetPrice = s'.book.GetPrice ∧ t'.err = s'.err ∧ t'.i = s'.i ∧
        t'.clear = true) ∧
    bsearch.getBookInfoStep env { t with binfo := true, info := true, i := 5 } (textToken d)
      = { t with binfo := true, info := false, i := 5 } ∧
    bsearch.getBookInfoStep env { t with binfo := true, info := true, i := 7 } (textToken d)
      = { t with binfo := true, info := false, i := 7 } := by
  refine ⟨?_, ?_, ?_⟩
  · have h0 : agree {} { book := { Expiration := now + bsearch.validity } } :=
      ⟨rfl, rfl, rfl, rfl, rfl, rfl, rfl, rfl, rfl, rfl, rfl, rfl⟩
    obtain ⟨t', ht', hc, hb, hi, hidx, he, h1, h2, h3, h4, h5, h6, h7⟩ :=
      getBookInfoLoop_agree env fuel {} s' _ token rest h0 h
    refine ⟨t', ht', h2.symm, h1.symm, h3.symm, h5.symm, h4.symm, h6.symm, h7.symm, he.symm,
      hidx.symm, ?_⟩
    rw [← hc]
    exact getBookInfoLoop_clear env fuel {} s' token rest h
  · simp [bsearch.getBookInfoStep, bsearch.dispatchText, textToken]
  · simp [bsearch.getBookInfoStep, bsearch.dispatchText, textToken]

/-- C20, with the network down, at the short page with the title `T` and the
identifier `0306406152`. -/
theorem getBookInfoLoop_variants_agree_witness :
    booksearcher.getBookInfoLoop offline 8 {} shortPage
      = some (Run.done ({ book := { title := "T", isbn := ("0306406152", "") },
                          clear := true, binfo := true, i := 1 }, [])) ∧
    ∃ t', bsearch.getBookInfoLoop offline 8
        { book := { Expiration := 0 + bsearch.validity } } shortPage = some (t', []) ∧
      t'.book.GetTitle = "T" ∧ t'.book.isbn = ("0306406152", "") :=
  ⟨by decide,
   match (getBookInfoLoop_variants_agree offline 0 8 shortPage []
      { book := { title := "T", isbn := ("0306406152", "") },
        clear := true, binfo := true, i := 1 } {} "" (by decide)).1 with
   | ⟨t', h1, h2, h3, _⟩ => ⟨t', h1, h2, h3⟩⟩
